import Mathlib

/-!
# OpenDDS multicast transport: the datalink registry

A shallow embedding of `dds/DCPS/transport/multicast/MulticastTransport.cpp`.

* The transport object is the pair of its two data members, `links_` (a `std::map` from
  `MulticastPeer` to a reference-counted `MulticastDataLink`) and `config_i_`.
* A member function becomes a function from the object (and its arguments) to an `Outcome`:
  the returned value, the object after the call and the list of calls made on collaborators
  (the `Effect`s, in program order).
* A function that dereferences `config_i_` returns `none` when that pointer is null (the
  behaviour of the C++ code is undefined there).
* What the collaborators answer during a call (`new`, `join`, `acked`) is an argument of
  the embedded function.
-/

namespace OpenDDS.DCPS

/-! ## Types the transport works on -/

/-- Key of the links map: the `long` returned by `RepoIdConverter::participantId()`. No
arithmetic is done on it, only comparisons. -/
abbrev MulticastPeer := Int

/-- Modelled from the spec: the declaration of `RepoId` is not among the sources. An entity
identifier is a participant component plus an entity-local component. -/
structure RepoId where
  participant : MulticastPeer
  entity : Nat
  deriving DecidableEq, Repr

/-- Modelled from the spec: `RepoIdConverter(id).participantId()`, the projection of an
entity identifier on its participant component. -/
def RepoIdConverter.participantId (id : RepoId) : MulticastPeer := id.participant

/-- Modelled from the spec: `RepoIdBuilder(id).participantId(p)`, which overwrites the
participant component of `id` in place and leaves the other components alone. -/
def RepoIdBuilder.participantId (id : RepoId) (p : MulticastPeer) : RepoId := ⟨p, id.entity⟩

/-- Modelled from the spec: a network address (host and port); the declaration of
`ACE_INET_Addr` is not among the sources. -/
structure ACE_INET_Addr where
  host : Nat
  port : Nat
  deriving DecidableEq, Repr

/-- One byte of a connection blob. -/
abbrev Octet := Fin 256

/-- The CORBA octet sequence `TransportInterfaceBLOB(max, length, buffer)`. -/
structure TransportInterfaceBLOB where
  maximum : Nat
  length : Nat
  buffer : List Octet
  deriving DecidableEq, Repr

/-- The descriptor exchanged through discovery: a transport tag and a blob. -/
structure TransportInterfaceInfo where
  transport_id : Int
  data : TransportInterfaceBLOB
  deriving DecidableEq, Repr

/-- The part of `AssociationData` the transport reads. -/
structure AssociationData where
  remote_id_ : RepoId
  remote_data_ : TransportInterfaceInfo
  deriving DecidableEq, Repr

/-- The part of `MulticastConfiguration` the transport reads. -/
structure MulticastConfiguration where
  reliable_ : Bool
  group_address_ : ACE_INET_Addr
  deriving DecidableEq, Repr

/-- A `TransportConfiguration` is either a `MulticastConfiguration` or a configuration of
another transport (told apart by `dynamic_cast`). -/
inductive TransportConfiguration where
  | multicast (config : MulticastConfiguration)
  | other (kind : Nat)
  deriving DecidableEq, Repr

/-- The result of `dynamic_cast<MulticastConfiguration*>(config)`; `none` is the null
pointer, also for a null argument. -/
def dynamic_cast : Option TransportConfiguration → Option MulticastConfiguration
  | some (.multicast config) => some config
  | _ => none

/-- Identity of a `MulticastDataLink` object (its address); a nullable `DataLink*` is an
`Option DataLinkPtr`. -/
abbrev DataLinkPtr := Nat

/-- The constant `TRANSPORT_INTERFACE_ID(0x4d435354)`. -/
def TRANSPORT_INTERFACE_ID : Int := 0x4d435354

/-- The library service behind `cdr << network_address` and `cdr >> network_address`, which
is not among the sources: `insert a` is the buffer of an `ACE_OutputCDR` after
`NetworkAddress(a)` has been inserted, `extract bytes` is the address that
`network_address.to_addr` yields after `ACE_InputCDR(bytes) >> network_address`. -/
structure CDR where
  insert : ACE_INET_Addr → List Octet
  extract : List Octet → ACE_INET_Addr

/-- A call the transport makes on a collaborator. -/
inductive Effect where
  | new_ReliableMulticast (link : DataLinkPtr) (local_peer remote_peer : MulticastPeer)
      (active : Bool)
  | new_BestEffortMulticast (link : DataLinkPtr) (local_peer remote_peer : MulticastPeer)
      (active : Bool)
  | configure (link : DataLinkPtr) (config : MulticastConfiguration)
  | send_strategy (link : DataLinkPtr)
  | receive_strategy (link : DataLinkPtr)
  | join (link : DataLinkPtr) (group_address : ACE_INET_Addr)
  | transport_shutdown (link : DataLinkPtr)
  | add_ref (config : MulticastConfiguration)
  | remove_ref (config : MulticastConfiguration)
  | disassociate_participant (remote_id : RepoId)
  | error_join_failed (group_address : ACE_INET_Addr)
  | error_invalid_configuration
  | warning_transport_id (transport_id : Int)
  | warning_disassociating (remote_id : RepoId)
  deriving DecidableEq, Repr

/-! ## The links map -/

/-- The `std::map<MulticastPeer, MulticastDataLink_rch>`: its entries in iteration order.
A value of the C++ type has strictly increasing keys (`MulticastDataLinkMap.ordered`); the
operations below are defined on every list. -/
abbrev MulticastDataLinkMap := List (MulticastPeer × DataLinkPtr)

/-- Strictly increasing keys: the lists that are values of the `std::map`. -/
def MulticastDataLinkMap.ordered (m : MulticastDataLinkMap) : Prop :=
  (m.map Prod.fst).Pairwise (· < ·)

/-- The lookup `std::map::find`: the value stored under `peer`, `none` for `end()`. -/
def MulticastDataLinkMap.find : MulticastDataLinkMap → MulticastPeer → Option DataLinkPtr
  | [], _ => none
  | (k, v) :: rest, peer => if k = peer then some v else MulticastDataLinkMap.find rest peer

/-- The insertion `std::map::insert`: puts the entry at its place in key order and leaves
the map alone when the key is already present. -/
def MulticastDataLinkMap.insert :
    MulticastDataLinkMap → MulticastPeer → DataLinkPtr → MulticastDataLinkMap
  | [], peer, link => [(peer, link)]
  | (k, v) :: rest, peer, link =>
    if peer < k then (peer, link) :: (k, v) :: rest
    else if peer = k then (k, v) :: rest
    else (k, v) :: MulticastDataLinkMap.insert rest peer link

/-- The loop of `release_datalink_i`: walk the map from `begin()`, erase the first entry
whose value is `link` and return. -/
def MulticastDataLinkMap.erase_link :
    MulticastDataLinkMap → DataLinkPtr → MulticastDataLinkMap
  | [], _ => []
  | (k, v) :: rest, link =>
    if link = v then rest else (k, v) :: MulticastDataLinkMap.erase_link rest link

/-- The loop of `reliability_lost_i`: walk the map from `begin()` and stop at the first
entry whose value is `link`; the key of that entry. -/
def MulticastDataLinkMap.find_link :
    MulticastDataLinkMap → DataLinkPtr → Option MulticastPeer
  | [], _ => none
  | (k, v) :: rest, link =>
    if link = v then some k else MulticastDataLinkMap.find_link rest link

/-- The channels stored in the map. -/
def MulticastDataLinkMap.links (m : MulticastDataLinkMap) : List DataLinkPtr :=
  m.map Prod.snd

/-- The peers that key an entry of the map. -/
def MulticastDataLinkMap.peers (m : MulticastDataLinkMap) : List MulticastPeer :=
  m.map Prod.fst

/-- Invariant I1: the map is a partial injection, no peer keys two entries and no channel
is the value of two entries. -/
def I1 (m : MulticastDataLinkMap) : Prop := m.peers.Nodup ∧ m.links.Nodup

instance (m : MulticastDataLinkMap) : Decidable (I1 m) := by
  unfold I1; infer_instance

instance (m : MulticastDataLinkMap) : Decidable m.ordered := by
  unfold MulticastDataLinkMap.ordered; infer_instance

/-! ## The transport -/

/-- The data members of `MulticastTransport`; `config_i_ = none` is the null pointer. -/
structure MulticastTransport where
  links_ : MulticastDataLinkMap
  config_i_ : Option MulticastConfiguration
  deriving DecidableEq, Repr

/-- What a member function leaves behind: the returned value, the transport after the
call, and the calls made on collaborators in program order. -/
structure Outcome (α : Type) where
  ret : α
  self : MulticastTransport
  effects : List Effect
  deriving DecidableEq, Repr

/-- What the collaborators answer during one `find_or_create_datalink`: the object
`ACE_NEW_RETURN` allocates for the link (`none` when the allocation fails), whether the
two strategy objects can be allocated, and what `join` returns for an address. -/
structure Collaborators where
  new_link : Option DataLinkPtr
  new_send_strategy : Bool
  new_recv_strategy : Bool
  join : ACE_INET_Addr → Bool

/-- The inbound `connection_info_i(const TransportInterfaceInfo&)`: warn when the tag is
not `TRANSPORT_INTERFACE_ID`, then decode the first `length()` bytes of the blob. -/
def connection_info_i_in (cdr : CDR) (info : TransportInterfaceInfo) :
    ACE_INET_Addr × List Effect :=
  let warning :=
    if info.transport_id ≠ TRANSPORT_INTERFACE_ID then
      [Effect.warning_transport_id info.transport_id]
    else []
  let len := info.data.length
  let buffer := info.data.buffer
  (cdr.extract (buffer.take len), warning)

/-- The outbound `connection_info_i(TransportInterfaceInfo&)`: the returned `int` and the
descriptor written through the reference. -/
def connection_info_i_out (self : MulticastTransport) (cdr : CDR)
    (_info : TransportInterfaceInfo) : Option (Outcome (Int × TransportInterfaceInfo)) :=
  match self.config_i_ with
  | none => none
  | some config =>
    let buffer := cdr.insert config.group_address_
    let len := buffer.length
    some ⟨(0, ⟨TRANSPORT_INTERFACE_ID, ⟨len, len, buffer⟩⟩), self, []⟩

/-- The member function `find_or_create_datalink`. The returned `DataLink*` is `none` for
the null pointer; `remote_association` is taken to be a valid pointer. -/
def find_or_create_datalink (self : MulticastTransport) (cdr : CDR) (env : Collaborators)
    (local_id : RepoId) (remote_association : AssociationData) (_priority : Int)
    (active : Bool) : Option (Outcome (Option DataLinkPtr)) :=
  let remote_peer := RepoIdConverter.participantId remote_association.remote_id_
  match self.links_.find remote_peer with
  | some found => some ⟨some found, self, []⟩
  | none =>
    let local_peer := RepoIdConverter.participantId local_id
    match self.config_i_ with
    | none => none
    | some config =>
      match env.new_link with
      | none => some ⟨none, self, []⟩
      | some link =>
        let made :=
          if config.reliable_ then
            [Effect.new_ReliableMulticast link local_peer remote_peer active]
          else
            [Effect.new_BestEffortMulticast link local_peer remote_peer active]
        let configured := made ++ [Effect.configure link config]
        if ¬ env.new_send_strategy then some ⟨none, self, configured⟩
        else
          let sending := configured ++ [Effect.send_strategy link]
          if ¬ env.new_recv_strategy then some ⟨none, self, sending⟩
          else
            let receiving := sending ++ [Effect.receive_strategy link]
            let resolved : ACE_INET_Addr × List Effect :=
              if active then connection_info_i_in cdr remote_association.remote_data_
              else (config.group_address_, [])
            let group_address := resolved.1
            let joining := receiving ++ resolved.2 ++ [Effect.join link group_address]
            if ¬ env.join group_address then
              some ⟨none, self, joining ++ [Effect.error_join_failed group_address]⟩
            else
              some ⟨some link, ⟨self.links_.insert remote_peer link, self.config_i_⟩,
                joining⟩

/-- The member function `configure_i`; `config = none` is a null pointer. -/
def configure_i (self : MulticastTransport) (config : Option TransportConfiguration) :
    Outcome Int :=
  match dynamic_cast config with
  | none => ⟨-1, ⟨self.links_, none⟩, [Effect.error_invalid_configuration]⟩
  | some config_i => ⟨0, ⟨self.links_, some config_i⟩, [Effect.add_ref config_i]⟩

/-- The member function `shutdown_i`. -/
def shutdown_i (self : MulticastTransport) : Option (Outcome Unit) :=
  let shut := self.links_.map (fun it => Effect.transport_shutdown it.2)
  match self.config_i_ with
  | none => none
  | some config => some ⟨(), ⟨[], none⟩, shut ++ [Effect.remove_ref config]⟩

/-- The member function `acked`; `link_acked` is what `acked()` of each channel answers. -/
def acked (self : MulticastTransport) (link_acked : DataLinkPtr → Bool)
    (_local_id remote_id : RepoId) : Outcome Bool :=
  let remote_peer := RepoIdConverter.participantId remote_id
  match self.links_.find remote_peer with
  | none => ⟨false, self, []⟩
  | some link => ⟨link_acked link, self, []⟩

/-- The member function `remove_ack`. -/
def remove_ack (self : MulticastTransport) (_local_id _remote_id : RepoId) : Outcome Unit :=
  ⟨(), self, []⟩

/-- The member function `release_datalink_i`. -/
def release_datalink_i (self : MulticastTransport) (link : DataLinkPtr)
    (_release_pending : Bool) : Outcome Unit :=
  ⟨(), ⟨self.links_.erase_link link, self.config_i_⟩, []⟩

/-- The member function `reliability_lost_i`; `participant_id` is what
`interface->get_participant_id()` answers. -/
def reliability_lost_i (self : MulticastTransport) (link : DataLinkPtr)
    (participant_id : RepoId) : Outcome Unit :=
  match self.links_.find_link link with
  | none => ⟨(), self, []⟩
  | some peer =>
    let remote_id := RepoIdBuilder.participantId participant_id peer
    ⟨(), self, [Effect.warning_disassociating remote_id,
      Effect.disassociate_participant remote_id]⟩

/-! ## Observations on a list of effects -/

/-- The channels constructed by a list of effects, in order. -/
def constructed : List Effect → List DataLinkPtr
  | [] => []
  | .new_ReliableMulticast link _ _ _ :: rest => link :: constructed rest
  | .new_BestEffortMulticast link _ _ _ :: rest => link :: constructed rest
  | _ :: rest => constructed rest

/-- The `join` calls in a list of effects, in order: the channel and the address. -/
def joins : List Effect → List (DataLinkPtr × ACE_INET_Addr)
  | [] => []
  | .join link group_address :: rest => (link, group_address) :: joins rest
  | _ :: rest => joins rest

/-! ## Sequences of calls -/

/-- One `find_or_create_datalink` call: its arguments and what the collaborators answer
during it. -/
structure Call where
  env : Collaborators
  local_id : RepoId
  remote_association : AssociationData
  priority : Int
  active : Bool

/-- The outcomes of a sequence of `find_or_create_datalink` calls, each made on the
transport the previous one left; the sequence stops at a call that has no outcome. -/
def find_or_create_datalinks (cdr : CDR) :
    MulticastTransport → List Call → List (Option (Outcome (Option DataLinkPtr)))
  | _, [] => []
  | self, c :: rest =>
    match find_or_create_datalink self cdr c.env c.local_id c.remote_association
        c.priority c.active with
    | none => [none]
    | some out => some out :: find_or_create_datalinks cdr out.self rest

/-- All effects of a list of outcomes, in order. -/
def effects_of {α : Type} : List (Option (Outcome α)) → List Effect
  | [] => []
  | none :: rest => effects_of rest
  | some out :: rest => out.effects ++ effects_of rest

/-- The states of a transport that starts with an empty links map. Every channel that
`find_or_create_datalink` allocates is fresh: it is not a channel the map holds. -/
inductive Reachable (cdr : CDR) : MulticastTransport → Prop where
  | init (config : Option MulticastConfiguration) : Reachable cdr ⟨[], config⟩
  | create (self : MulticastTransport) (c : Call) (out : Outcome (Option DataLinkPtr)) :
      Reachable cdr self →
      (∀ link, c.env.new_link = some link → link ∉ self.links_.links) →
      find_or_create_datalink self cdr c.env c.local_id c.remote_association c.priority
        c.active = some out →
      Reachable cdr out.self
  | release (self : MulticastTransport) (link : DataLinkPtr) (release_pending : Bool) :
      Reachable cdr self → Reachable cdr (release_datalink_i self link release_pending).self
  | shutdown (self : MulticastTransport) (out : Outcome Unit) :
      Reachable cdr self → shutdown_i self = some out → Reachable cdr out.self
  | configure (self : MulticastTransport) (config : Option TransportConfiguration) :
      Reachable cdr self → Reachable cdr (configure_i self config).self

/-- A call of one of the member functions that read or write the links map or the
configuration. -/
inductive Request where
  | find_or_create_datalink (c : Call)
  | configure_i (config : Option TransportConfiguration)
  | shutdown_i
  | acked (link_acked : DataLinkPtr → Bool) (local_id remote_id : RepoId)
  | remove_ack (local_id remote_id : RepoId)
  | release_datalink_i (link : DataLinkPtr) (release_pending : Bool)
  | reliability_lost_i (link : DataLinkPtr) (participant_id : RepoId)

/-- The transport after a request; `none` when the request has no outcome. -/
def apply_request (cdr : CDR) (self : MulticastTransport) :
    Request → Option MulticastTransport
  | .find_or_create_datalink c =>
    (find_or_create_datalink self cdr c.env c.local_id c.remote_association c.priority
      c.active).map Outcome.self
  | .configure_i config => some (configure_i self config).self
  | .shutdown_i => (shutdown_i self).map Outcome.self
  | .acked link_acked local_id remote_id => some (acked self link_acked local_id remote_id).self
  | .remove_ack local_id remote_id => some (remove_ack self local_id remote_id).self
  | .release_datalink_i link release_pending =>
    some (release_datalink_i self link release_pending).self
  | .reliability_lost_i link participant_id =>
    some (reliability_lost_i self link participant_id).self

/-- Whether a request is a `configure_i` call with a `MulticastConfiguration`. -/
def Request.configures : Request → Bool
  | .configure_i config => (dynamic_cast config).isSome
  | _ => false

/-- The transport after a sequence of requests; `none` when one of them has no outcome. -/
def run_requests (cdr : CDR) : MulticastTransport → List Request → Option MulticastTransport
  | self, [] => some self
  | self, r :: rest =>
    match apply_request cdr self r with
    | none => none
    | some next => run_requests cdr next rest

/-- The `transport_shutdown` calls in a list of effects, in order: the channels shut down. -/
def shutdowns : List Effect → List DataLinkPtr
  | [] => []
  | .transport_shutdown link :: rest => link :: shutdowns rest
  | _ :: rest => shutdowns rest

/-- The `disassociate_participant` calls in a list of effects, in order: their arguments. -/
def disassociations : List Effect → List RepoId
  | [] => []
  | .disassociate_participant remote_id :: rest => remote_id :: disassociations rest
  | _ :: rest => disassociations rest

/-! ## A codec for network addresses -/

/-- The byte `n mod 256`. -/
def octet (n : Nat) : Octet := ⟨n % 256, Nat.mod_lt n (by decide)⟩

/-- Modelled from the spec: `encode(address)`, the serialization of a network address. The
operators of `NetworkAddress` on CDR streams are not among the sources; here the host is
written as four bytes and the port as two, most significant byte first, with no padding. -/
def NetworkAddress.encode (a : ACE_INET_Addr) : List Octet :=
  [octet (a.host / 16777216), octet (a.host / 65536), octet (a.host / 256), octet a.host,
    octet (a.port / 256), octet a.port]

/-- Modelled from the spec: `decode(bytes)`, the inverse of `NetworkAddress.encode` as the
inbound `connection_info_i` uses it. That function returns an `ACE_INET_Addr` by value and
does not look at the state of the stream, so bytes that are not an encoding yield the
address it starts from, the default-constructed one. -/
def NetworkAddress.decode : List Octet → ACE_INET_Addr
  | [h3, h2, h1, h0, p1, p0] =>
    ⟨((h3.val * 256 + h2.val) * 256 + h1.val) * 256 + h0.val, p1.val * 256 + p0.val⟩
  | _ => ⟨0, 0⟩

/-- Modelled from the spec: the addresses the codec can represent, a 32-bit host and a
16-bit port. -/
def NetworkAddress.representable (a : ACE_INET_Addr) : Prop :=
  a.host < 4294967296 ∧ a.port < 65536

instance (a : ACE_INET_Addr) : Decidable (NetworkAddress.representable a) := by
  unfold NetworkAddress.representable; infer_instance

/-- The codec as the library service the transport calls. -/
def NetworkAddress.cdr : CDR := ⟨NetworkAddress.encode, NetworkAddress.decode⟩

/-! ## Concrete inputs

The scenario of the example in the specification: a best-effort transport configured with
the group address `239.1.1.1:4000`, a local participant `1` and a remote participant `2`. -/

/-- The address `239.1.1.1:4000`. -/
def sample_address : ACE_INET_Addr := ⟨4009820417, 4000⟩

/-- A best-effort configuration with the group address `239.1.1.1:4000`. -/
def sample_config : MulticastConfiguration := ⟨false, sample_address⟩

/-- Collaborators that allocate the link `link` and both strategies; `join` answers
`joined` for every address. -/
def sample_env (link : DataLinkPtr) (joined : Bool) : Collaborators :=
  ⟨some link, true, true, fun _ => joined⟩

/-- The descriptor a peer configured with `239.1.1.2:4000` publishes. -/
def sample_remote_data : TransportInterfaceInfo :=
  ⟨TRANSPORT_INTERFACE_ID, ⟨6, 6, NetworkAddress.encode ⟨4009820418, 4000⟩⟩⟩

/-- A descriptor with an empty blob. -/
def empty_remote_data : TransportInterfaceInfo := ⟨TRANSPORT_INTERFACE_ID, ⟨0, 0, []⟩⟩

/-- An association with the entity `entity` of the remote participant `2`. -/
def sample_association (entity : Nat) : AssociationData := ⟨⟨2, entity⟩, sample_remote_data⟩

/-- A passive call from the entity `entity` of the local participant `1` for the entity
`entity` of the remote participant `2`. -/
def sample_call (link : DataLinkPtr) (entity : Nat) : Call :=
  ⟨sample_env link true, ⟨1, entity⟩, sample_association entity, 0, false⟩

end OpenDDS.DCPS

/-! # The benchmark worker's listener

A shallow embedding of `WorkerDataReaderListener::add_handler` and
`WorkerDataReaderListener::remove_handler` of
`performance-tests/bench/worker/WorkerDataReaderListener.cpp`. -/

namespace Bench

/-- Identity of a `DataHandler` object (its address). -/
abbrev DataHandlerPtr := Nat

/-- The data member of `WorkerDataReaderListener` that the two functions work on, the
`std::vector<DataHandler*>` named `handlers_`. -/
structure WorkerDataReaderListener where
  handlers_ : List DataHandlerPtr
  deriving DecidableEq, Repr

/-- The member function `add_handler`: `handlers_.push_back(&handler)`. -/
def add_handler (self : WorkerDataReaderListener) (handler : DataHandlerPtr) :
    WorkerDataReaderListener :=
  ⟨self.handlers_ ++ [handler]⟩

/-- The `for` loop of `remove_handler`: walk `handlers_` from `begin()`, erase the first
element equal to `&handler`, set `found` and break. The result is the vector after the loop
and the value of `found`. -/
def remove_handler_for (handler : DataHandlerPtr) :
    List DataHandlerPtr → List DataHandlerPtr × Bool
  | [] => ([], false)
  | it :: rest =>
    if handler = it then (rest, true)
    else ((it :: (remove_handler_for handler rest).1), (remove_handler_for handler rest).2)

/-- The `while (found)` loop of `remove_handler`, run for at most `fuel` rounds: every
round runs the `for` loop once and the loop ends after a round that found nothing. The
result is `none` when `fuel` rounds were not enough. -/
def remove_handler_while (handler : DataHandlerPtr) :
    Nat → List DataHandlerPtr → Option (List DataHandlerPtr)
  | 0, _ => none
  | fuel + 1, handlers_ =>
    match remove_handler_for handler handlers_ with
    | (scanned, true) => remove_handler_while handler fuel scanned
    | (scanned, false) => some scanned

/-- The member function `remove_handler`, with a bound on the rounds of its outer loop. -/
def remove_handler (self : WorkerDataReaderListener) (handler : DataHandlerPtr)
    (fuel : Nat) : Option WorkerDataReaderListener :=
  (remove_handler_while handler fuel self.handlers_).map WorkerDataReaderListener.mk

end Bench

namespace OpenDDS.DCPS

/-! ## Lemmas on the links map -/

theorem MulticastDataLinkMap.find_eq_none_iff (m : MulticastDataLinkMap) (peer : MulticastPeer) :
    m.find peer = none ↔ peer ∉ m.peers := by
  induction m with
  | nil => simp [MulticastDataLinkMap.find, MulticastDataLinkMap.peers]
  | cons e rest ih =>
    obtain ⟨k, v⟩ := e
    by_cases hk : k = peer
    · simp [MulticastDataLinkMap.find, MulticastDataLinkMap.peers, hk]
    · simp only [MulticastDataLinkMap.find, hk, if_false, ih]
      simp [MulticastDataLinkMap.peers, Ne.symm hk]

theorem MulticastDataLinkMap.mem_of_find (m : MulticastDataLinkMap) (peer : MulticastPeer)
    (link : DataLinkPtr) (h : m.find peer = some link) : (peer, link) ∈ m := by
  induction m with
  | nil => simp [MulticastDataLinkMap.find] at h
  | cons e rest ih =>
    obtain ⟨k, v⟩ := e
    by_cases hk : k = peer
    · simp [MulticastDataLinkMap.find, hk] at h
      simp [hk, h]
    · simp only [MulticastDataLinkMap.find, hk, if_false] at h
      exact List.mem_cons_of_mem _ (ih h)

theorem MulticastDataLinkMap.find_insert_self (m : MulticastDataLinkMap) (peer : MulticastPeer)
    (link : DataLinkPtr) (h : m.find peer = none) : (m.insert peer link).find peer = some link := by
  induction m with
  | nil => simp [MulticastDataLinkMap.insert, MulticastDataLinkMap.find]
  | cons e rest ih =>
    obtain ⟨k, v⟩ := e
    have hk : k ≠ peer := by
      intro hk
      simp [MulticastDataLinkMap.find, hk] at h
    have hrest : MulticastDataLinkMap.find rest peer = none := by
      simpa [MulticastDataLinkMap.find, hk] using h
    by_cases hlt : peer < k
    · simp [MulticastDataLinkMap.insert, MulticastDataLinkMap.find, hlt]
    · simp [MulticastDataLinkMap.insert, MulticastDataLinkMap.find, hlt, hk, Ne.symm hk,
        ih hrest]

theorem MulticastDataLinkMap.find_insert_other (m : MulticastDataLinkMap)
    (peer k : MulticastPeer) (link : DataLinkPtr) (hne : k ≠ peer) :
    (m.insert peer link).find k = m.find k := by
  induction m with
  | nil => simp [MulticastDataLinkMap.insert, MulticastDataLinkMap.find, Ne.symm hne]
  | cons e rest ih =>
    obtain ⟨k1, v1⟩ := e
    by_cases hlt : peer < k1
    · simp [MulticastDataLinkMap.insert, MulticastDataLinkMap.find, hlt, Ne.symm hne]
    · by_cases heq : peer = k1
      · simp [MulticastDataLinkMap.insert, MulticastDataLinkMap.find, hlt, heq]
      · simp [MulticastDataLinkMap.insert, MulticastDataLinkMap.find, hlt, heq, ih]

theorem MulticastDataLinkMap.insert_perm (m : MulticastDataLinkMap) (peer : MulticastPeer)
    (link : DataLinkPtr) (h : m.find peer = none) :
    (m.insert peer link).Perm ((peer, link) :: m) := by
  induction m with
  | nil => simp [MulticastDataLinkMap.insert]
  | cons e rest ih =>
    obtain ⟨k, v⟩ := e
    have hk : k ≠ peer := by
      intro hk
      simp [MulticastDataLinkMap.find, hk] at h
    have hrest : MulticastDataLinkMap.find rest peer = none := by
      simpa [MulticastDataLinkMap.find, hk] using h
    by_cases hlt : peer < k
    · simp [MulticastDataLinkMap.insert, hlt]
    · simp only [MulticastDataLinkMap.insert, hlt, if_false, Ne.symm hk]
      exact ((ih hrest).cons (k, v)).trans (List.Perm.swap _ _ _)

theorem MulticastDataLinkMap.mem_insert (m : MulticastDataLinkMap) (peer : MulticastPeer)
    (link : DataLinkPtr) (e : MulticastPeer × DataLinkPtr) (h : e ∈ m.insert peer link) :
    e = (peer, link) ∨ e ∈ m := by
  induction m with
  | nil => simpa [MulticastDataLinkMap.insert] using h
  | cons e1 rest ih =>
    obtain ⟨k, v⟩ := e1
    by_cases hlt : peer < k
    · simp only [MulticastDataLinkMap.insert, hlt, if_true, List.mem_cons] at h
      simpa using h
    · by_cases heq : peer = k
      · simp only [MulticastDataLinkMap.insert, hlt, heq, if_false, if_true] at h
        exact Or.inr (by simpa [heq] using h)
      · simp only [MulticastDataLinkMap.insert, hlt, heq, if_false, List.mem_cons] at h
        rcases h with h | h
        · exact Or.inr (by simp [h])
        · rcases ih h with h1 | h1
          · exact Or.inl h1
          · exact Or.inr (List.mem_cons_of_mem _ h1)

theorem MulticastDataLinkMap.insert_ordered (m : MulticastDataLinkMap) (peer : MulticastPeer)
    (link : DataLinkPtr) (h : m.ordered) : (m.insert peer link).ordered := by
  induction m with
  | nil => simp [MulticastDataLinkMap.insert, MulticastDataLinkMap.ordered]
  | cons e1 rest ih =>
    obtain ⟨k, v⟩ := e1
    have hrest : MulticastDataLinkMap.ordered rest := by
      unfold MulticastDataLinkMap.ordered at h ⊢
      exact (List.pairwise_cons.mp h).2
    have hk : ∀ e ∈ rest, k < e.1 := by
      unfold MulticastDataLinkMap.ordered at h
      intro e he
      exact (List.pairwise_cons.mp h).1 e.1 (List.mem_map_of_mem Prod.fst he)
    by_cases hlt : peer < k
    · simp only [MulticastDataLinkMap.insert, hlt, if_true]
      unfold MulticastDataLinkMap.ordered at h ⊢
      simp only [List.map_cons, List.pairwise_cons]
      refine ⟨?_, List.pairwise_cons.mp h⟩
      intro a ha
      rcases List.mem_cons.mp ha with ha | ha
      · exact ha ▸ hlt
      · obtain ⟨e, he, rfl⟩ := List.mem_map.mp ha
        exact lt_trans hlt (hk e he)
    · by_cases heq : peer = k
      · simpa [MulticastDataLinkMap.insert, hlt, heq] using h
      · simp only [MulticastDataLinkMap.insert, hlt, heq, if_false]
        have ih1 := ih hrest
        unfold MulticastDataLinkMap.ordered at ih1 ⊢
        simp only [List.map_cons, List.pairwise_cons]
        refine ⟨?_, ih1⟩
        intro a ha
        obtain ⟨e, he, rfl⟩ := List.mem_map.mp ha
        rcases MulticastDataLinkMap.mem_insert rest peer link e he with h1 | h1
        · rw [h1]
          exact lt_of_le_of_ne (not_lt.mp hlt) (Ne.symm heq)
        · exact hk e h1

theorem MulticastDataLinkMap.erase_link_sublist (m : MulticastDataLinkMap)
    (link : DataLinkPtr) : (m.erase_link link).Sublist m := by
  induction m with
  | nil => simp [MulticastDataLinkMap.erase_link]
  | cons e1 rest ih =>
    obtain ⟨k, v⟩ := e1
    by_cases hv : link = v
    · simp [MulticastDataLinkMap.erase_link, hv]
    · simp only [MulticastDataLinkMap.erase_link, hv, if_false]
      exact ih.cons₂ _

theorem MulticastDataLinkMap.erase_link_ordered (m : MulticastDataLinkMap)
    (link : DataLinkPtr) (h : m.ordered) : (m.erase_link link).ordered := by
  unfold MulticastDataLinkMap.ordered at h ⊢
  exact h.sublist ((MulticastDataLinkMap.erase_link_sublist m link).map Prod.fst)

theorem I1_erase_link (m : MulticastDataLinkMap) (link : DataLinkPtr) (h : I1 m) :
    I1 (m.erase_link link) := by
  unfold I1 MulticastDataLinkMap.peers MulticastDataLinkMap.links at h ⊢
  exact ⟨h.1.sublist ((MulticastDataLinkMap.erase_link_sublist m link).map Prod.fst),
    h.2.sublist ((MulticastDataLinkMap.erase_link_sublist m link).map Prod.snd)⟩

theorem I1_insert (m : MulticastDataLinkMap) (peer : MulticastPeer) (link : DataLinkPtr)
    (h : I1 m) (hfind : m.find peer = none) (hfresh : link ∉ m.links) :
    I1 (m.insert peer link) := by
  have hperm := MulticastDataLinkMap.insert_perm m peer link hfind
  have hpeer : peer ∉ m.peers := (MulticastDataLinkMap.find_eq_none_iff m peer).mp hfind
  unfold I1 MulticastDataLinkMap.peers MulticastDataLinkMap.links at h ⊢
  unfold MulticastDataLinkMap.peers at hpeer
  unfold MulticastDataLinkMap.links at hfresh
  constructor
  · rw [(hperm.map Prod.fst).nodup_iff]
    simpa using ⟨by simpa using hpeer, h.1⟩
  · rw [(hperm.map Prod.snd).nodup_iff]
    simpa using ⟨by simpa using hfresh, h.2⟩

theorem MulticastDataLinkMap.erase_link_of_not_mem (m : MulticastDataLinkMap)
    (link : DataLinkPtr) (h : link ∉ m.links) : m.erase_link link = m := by
  induction m with
  | nil => simp [MulticastDataLinkMap.erase_link]
  | cons e1 rest ih =>
    obtain ⟨k, v⟩ := e1
    have hv : link ≠ v := by
      intro hv
      exact h (by simp [MulticastDataLinkMap.links, hv])
    have hrest : link ∉ MulticastDataLinkMap.links rest := by
      intro hm
      exact h (by
        unfold MulticastDataLinkMap.links at hm ⊢
        exact List.mem_cons_of_mem _ hm)
    simp [MulticastDataLinkMap.erase_link, hv, ih hrest]

theorem MulticastDataLinkMap.not_mem_erase_link (m : MulticastDataLinkMap)
    (link : DataLinkPtr) (h : m.links.Nodup) : link ∉ (m.erase_link link).links := by
  induction m with
  | nil => simp [MulticastDataLinkMap.erase_link, MulticastDataLinkMap.links]
  | cons e1 rest ih =>
    obtain ⟨k, v⟩ := e1
    have hnd : (MulticastDataLinkMap.links rest).Nodup ∧ v ∉ MulticastDataLinkMap.links rest := by
      unfold MulticastDataLinkMap.links at h ⊢
      simp only [List.map_cons, List.nodup_cons] at h
      exact ⟨h.2, h.1⟩
    by_cases hv : link = v
    · simp only [MulticastDataLinkMap.erase_link, hv, if_true]
      exact hnd.2
    · simp only [MulticastDataLinkMap.erase_link, hv, if_false]
      intro hm
      unfold MulticastDataLinkMap.links at hm
      simp only [List.map_cons, List.mem_cons] at hm
      rcases hm with hm | hm
      · exact hv hm
      · exact ih hnd.1 hm

theorem MulticastDataLinkMap.find_link_eq_none_iff (m : MulticastDataLinkMap)
    (link : DataLinkPtr) : m.find_link link = none ↔ link ∉ m.links := by
  induction m with
  | nil => simp [MulticastDataLinkMap.find_link, MulticastDataLinkMap.links]
  | cons e rest ih =>
    obtain ⟨k, v⟩ := e
    by_cases hv : link = v
    · simp [MulticastDataLinkMap.find_link, MulticastDataLinkMap.links, hv]
    · simp only [MulticastDataLinkMap.find_link, hv, if_false, ih]
      simp [MulticastDataLinkMap.links, hv]

theorem MulticastDataLinkMap.mem_of_find_link (m : MulticastDataLinkMap)
    (link : DataLinkPtr) (peer : MulticastPeer) (h : m.find_link link = some peer) :
    (peer, link) ∈ m := by
  induction m with
  | nil => simp [MulticastDataLinkMap.find_link] at h
  | cons e rest ih =>
    obtain ⟨k, v⟩ := e
    by_cases hv : link = v
    · simp [MulticastDataLinkMap.find_link, hv] at h
      simp [hv, h]
    · simp only [MulticastDataLinkMap.find_link, hv, if_false] at h
      exact List.mem_cons_of_mem _ (ih h)

theorem MulticastDataLinkMap.find_link_of_mem (m : MulticastDataLinkMap)
    (link : DataLinkPtr) (peer : MulticastPeer) (hnd : m.links.Nodup)
    (h : (peer, link) ∈ m) : m.find_link link = some peer := by
  induction m with
  | nil => simp at h
  | cons e rest ih =>
    obtain ⟨k, v⟩ := e
    have hnd1 : (MulticastDataLinkMap.links rest).Nodup ∧ v ∉ MulticastDataLinkMap.links rest := by
      unfold MulticastDataLinkMap.links at hnd ⊢
      simp only [List.map_cons, List.nodup_cons] at hnd
      exact ⟨hnd.2, hnd.1⟩
    rcases List.mem_cons.mp h with h1 | h1
    · have hk : peer = k := congrArg Prod.fst h1
      have hv : link = v := congrArg Prod.snd h1
      simp [MulticastDataLinkMap.find_link, hv, hk]
    · have hv : link ≠ v := by
        intro hv
        apply hnd1.2
        unfold MulticastDataLinkMap.links
        exact hv ▸ List.mem_map_of_mem Prod.snd h1
      simp only [MulticastDataLinkMap.find_link, hv, if_false]
      exact ih hnd1.1 h1

theorem MulticastDataLinkMap.find_erase_link_other (m : MulticastDataLinkMap)
    (link : DataLinkPtr) (peer k : MulticastPeer) (h : m.find_link link = some peer)
    (hk : k ≠ peer) : (m.erase_link link).find k = m.find k := by
  induction m with
  | nil => simp [MulticastDataLinkMap.erase_link]
  | cons e rest ih =>
    obtain ⟨k1, v1⟩ := e
    by_cases hv : link = v1
    · simp only [MulticastDataLinkMap.find_link, hv, if_true, Option.some.injEq] at h
      have hne : k1 ≠ k := by
        intro hh
        exact hk (hh ▸ h)
      simp [MulticastDataLinkMap.erase_link, MulticastDataLinkMap.find, hv, hne]
    · simp only [MulticastDataLinkMap.find_link, hv, if_false] at h
      simp only [MulticastDataLinkMap.erase_link, hv, if_false, MulticastDataLinkMap.find]
      rw [ih h]

theorem MulticastDataLinkMap.find_erase_link_self (m : MulticastDataLinkMap)
    (link : DataLinkPtr) (peer : MulticastPeer) (hnd : m.peers.Nodup)
    (h : m.find_link link = some peer) : (m.erase_link link).find peer = none := by
  induction m with
  | nil => simp [MulticastDataLinkMap.erase_link, MulticastDataLinkMap.find]
  | cons e rest ih =>
    obtain ⟨k1, v1⟩ := e
    have hnd1 : (MulticastDataLinkMap.peers rest).Nodup ∧ k1 ∉ MulticastDataLinkMap.peers rest := by
      unfold MulticastDataLinkMap.peers at hnd ⊢
      simp only [List.map_cons, List.nodup_cons] at hnd
      exact ⟨hnd.2, hnd.1⟩
    by_cases hv : link = v1
    · simp only [MulticastDataLinkMap.find_link, hv, if_true, Option.some.injEq] at h
      simp only [MulticastDataLinkMap.erase_link, hv, if_true]
      rw [MulticastDataLinkMap.find_eq_none_iff]
      exact h ▸ hnd1.2
    · simp only [MulticastDataLinkMap.find_link, hv, if_false] at h
      have hmem := MulticastDataLinkMap.mem_of_find_link rest link peer h
      have hne : k1 ≠ peer := by
        intro hh
        apply hnd1.2
        unfold MulticastDataLinkMap.peers
        exact hh ▸ List.mem_map_of_mem Prod.fst hmem
      simp only [MulticastDataLinkMap.erase_link, hv, if_false, MulticastDataLinkMap.find, hne]
      exact ih hnd1.1 h

theorem MulticastDataLinkMap.length_erase_link (m : MulticastDataLinkMap)
    (link : DataLinkPtr) (h : link ∈ m.links) :
    (m.erase_link link).length + 1 = m.length := by
  induction m with
  | nil => simp [MulticastDataLinkMap.links] at h
  | cons e rest ih =>
    obtain ⟨k1, v1⟩ := e
    by_cases hv : link = v1
    · simp [MulticastDataLinkMap.erase_link, hv]
    · have hrest : link ∈ MulticastDataLinkMap.links rest := by
        unfold MulticastDataLinkMap.links at h ⊢
        simp only [List.map_cons, List.mem_cons] at h
        rcases h with h | h
        · exact absurd h hv
        · exact h
      simp [MulticastDataLinkMap.erase_link, hv, ih hrest]

/-! ## The creation path of `find_or_create_datalink` -/

theorem find_or_create_datalink_hit (self : MulticastTransport) (cdr : CDR)
    (env : Collaborators) (local_id : RepoId) (remote_association : AssociationData)
    (priority : Int) (active : Bool) (found : DataLinkPtr)
    (h : self.links_.find (RepoIdConverter.participantId remote_association.remote_id_) =
      some found) :
    find_or_create_datalink self cdr env local_id remote_association priority active =
      some ⟨some found, self, []⟩ := by
  unfold find_or_create_datalink
  simp [h]

theorem find_or_create_datalink_created (self : MulticastTransport) (cdr : CDR)
    (env : Collaborators) (local_id : RepoId) (remote_association : AssociationData)
    (priority : Int) (active : Bool) (config : MulticastConfiguration) (link : DataLinkPtr)
    (hmiss : self.links_.find (RepoIdConverter.participantId remote_association.remote_id_) =
      none)
    (hconfig : self.config_i_ = some config) (hlink : env.new_link = some link)
    (hsend : env.new_send_strategy = true) (hrecv : env.new_recv_strategy = true) :
    find_or_create_datalink self cdr env local_id remote_association priority active =
      some (if env.join (if active then
            (connection_info_i_in cdr remote_association.remote_data_).1
          else config.group_address_) = true then
        ⟨some link,
          ⟨self.links_.insert (RepoIdConverter.participantId remote_association.remote_id_)
            link, some config⟩,
          [if config.reliable_ = true then
              Effect.new_ReliableMulticast link (RepoIdConverter.participantId local_id)
                (RepoIdConverter.participantId remote_association.remote_id_) active
            else
              Effect.new_BestEffortMulticast link (RepoIdConverter.participantId local_id)
                (RepoIdConverter.participantId remote_association.remote_id_) active,
            Effect.configure link config, Effect.send_strategy link,
            Effect.receive_strategy link] ++
          (if active then (connection_info_i_in cdr remote_association.remote_data_).2
            else []) ++
          [Effect.join link (if active then
            (connection_info_i_in cdr remote_association.remote_data_).1
          else config.group_address_)]⟩
      else
        ⟨none, self,
          [if config.reliable_ = true then
              Effect.new_ReliableMulticast link (RepoIdConverter.participantId local_id)
                (RepoIdConverter.participantId remote_association.remote_id_) active
            else
              Effect.new_BestEffortMulticast link (RepoIdConverter.participantId local_id)
                (RepoIdConverter.participantId remote_association.remote_id_) active,
            Effect.configure link config, Effect.send_strategy link,
            Effect.receive_strategy link] ++
          (if active then (connection_info_i_in cdr remote_association.remote_data_).2
            else []) ++
          [Effect.join link (if active then
            (connection_info_i_in cdr remote_association.remote_data_).1
          else config.group_address_),
           Effect.error_join_failed (if active then
            (connection_info_i_in cdr remote_association.remote_data_).1
          else config.group_address_)]⟩) := by
  unfold find_or_create_datalink
  simp only [hmiss, hconfig, hlink, hsend, hrecv]
  cases active <;> cases hr : config.reliable_ <;>
    by_cases hj : env.join config.group_address_ = true <;>
    by_cases hj2 :
      env.join (connection_info_i_in cdr remote_association.remote_data_).1 = true <;>
    simp [hj, hj2]

theorem constructed_append (xs ys : List Effect) :
    constructed (xs ++ ys) = constructed xs ++ constructed ys := by
  induction xs with
  | nil => simp [constructed]
  | cons x rest ih => cases x <;> simp [constructed, ih]

theorem joins_append (xs ys : List Effect) : joins (xs ++ ys) = joins xs ++ joins ys := by
  induction xs with
  | nil => simp [joins]
  | cons x rest ih => cases x <;> simp [joins, ih]

theorem connection_info_i_in_effects (cdr : CDR) (info : TransportInterfaceInfo) :
    (connection_info_i_in cdr info).2 =
      if info.transport_id = TRANSPORT_INTERFACE_ID then []
      else [Effect.warning_transport_id info.transport_id] := by
  unfold connection_info_i_in
  by_cases h : info.transport_id = TRANSPORT_INTERFACE_ID <;> simp [h]

theorem constructed_connection_info_i_in (cdr : CDR) (info : TransportInterfaceInfo) :
    constructed (connection_info_i_in cdr info).2 = [] := by
  rw [connection_info_i_in_effects]
  by_cases h : info.transport_id = TRANSPORT_INTERFACE_ID <;> simp [h, constructed]

theorem joins_connection_info_i_in (cdr : CDR) (info : TransportInterfaceInfo) :
    joins (connection_info_i_in cdr info).2 = [] := by
  rw [connection_info_i_in_effects]
  by_cases h : info.transport_id = TRANSPORT_INTERFACE_ID <;> simp [h, joins]

theorem find_or_create_datalink_created_facts (self : MulticastTransport) (cdr : CDR)
    (env : Collaborators) (local_id : RepoId) (remote_association : AssociationData)
    (priority : Int) (active : Bool) (config : MulticastConfiguration) (link : DataLinkPtr)
    (hmiss : self.links_.find (RepoIdConverter.participantId remote_association.remote_id_) =
      none)
    (hconfig : self.config_i_ = some config) (hlink : env.new_link = some link)
    (hsend : env.new_send_strategy = true) (hrecv : env.new_recv_strategy = true) :
    ∃ out, find_or_create_datalink self cdr env local_id remote_association priority active =
        some out ∧
      constructed out.effects = [link] ∧
      joins out.effects = [(link, if active then
          (connection_info_i_in cdr remote_association.remote_data_).1
        else config.group_address_)] ∧
      (env.join (if active then (connection_info_i_in cdr remote_association.remote_data_).1
        else config.group_address_) = true →
        out.ret = some link ∧
        out.self = ⟨self.links_.insert
          (RepoIdConverter.participantId remote_association.remote_id_) link, some config⟩) ∧
      (env.join (if active then (connection_info_i_in cdr remote_association.remote_data_).1
        else config.group_address_) = false →
        out.ret = none ∧ out.self = self ∧
        Effect.error_join_failed (if active then
          (connection_info_i_in cdr remote_association.remote_data_).1
        else config.group_address_) ∈ out.effects) := by
  refine ⟨_, find_or_create_datalink_created self cdr env local_id remote_association priority
    active config link hmiss hconfig hlink hsend hrecv, ?_, ?_, ?_, ?_⟩
  · split_ifs <;>
      simp [constructed_append, constructed, constructed_connection_info_i_in]
  · split_ifs <;>
      simp [joins_append, joins, joins_connection_info_i_in]
  · intro hj
    simp [hj]
  · intro hj
    simp [hj]

theorem find_or_create_datalinks_hits (cdr : CDR) (self : MulticastTransport)
    (P : MulticastPeer) (L : DataLinkPtr) (cs : List Call)
    (hsame : ∀ c ∈ cs, RepoIdConverter.participantId c.remote_association.remote_id_ = P)
    (hreg : self.links_.find P = some L) :
    find_or_create_datalinks cdr self cs = cs.map (fun _ => some ⟨some L, self, []⟩) := by
  induction cs with
  | nil => simp [find_or_create_datalinks]
  | cons c rest ih =>
    have hc := hsame c (List.mem_cons_self _ _)
    have hhit := find_or_create_datalink_hit self cdr c.env c.local_id c.remote_association
      c.priority c.active L (hc ▸ hreg)
    simp only [find_or_create_datalinks, hhit, List.map_cons]
    rw [ih (fun c1 h1 => hsame c1 (List.mem_cons_of_mem _ h1))]

theorem effects_of_hits (L : DataLinkPtr) (self : MulticastTransport) (cs : List Call) :
    effects_of (cs.map (fun _ => (some ⟨some L, self, []⟩ :
      Option (Outcome (Option DataLinkPtr))))) = [] := by
  induction cs with
  | nil => simp [effects_of]
  | cons c rest ih =>
    simp only [List.map_cons, effects_of, List.nil_append]
    exact ih

/-! ## The claims on `find_or_create_datalink` -/

/-- Claim C1, the sharing invariant. On a configured transport with an empty links map, take
any non-empty sequence of `find_or_create_datalink` calls whose remote ids all project to the
participant `P`, where the first call can allocate its link `L` and its strategies and the
join of `L` succeeds. Then every call has an outcome, exactly one channel (`L`) is
constructed over the whole sequence, every call returns `L`, and after every call the links
map is the single entry `P ↦ L`. -/
theorem sharing_invariant (cdr : CDR) (config : MulticastConfiguration) (P : MulticastPeer)
    (first : Call) (rest : List Call) (L : DataLinkPtr)
    (hsame : ∀ c ∈ first :: rest,
      RepoIdConverter.participantId c.remote_association.remote_id_ = P)
    (hlink : first.env.new_link = some L)
    (hsend : first.env.new_send_strategy = true)
    (hrecv : first.env.new_recv_strategy = true)
    (hjoin : first.env.join (if first.active then
        (connection_info_i_in cdr first.remote_association.remote_data_).1
      else config.group_address_) = true) :
    (find_or_create_datalinks cdr ⟨[], some config⟩ (first :: rest)).length =
        (first :: rest).length ∧
      constructed (effects_of
        (find_or_create_datalinks cdr ⟨[], some config⟩ (first :: rest))) = [L] ∧
      ∀ o ∈ find_or_create_datalinks cdr ⟨[], some config⟩ (first :: rest),
        ∃ out, o = some out ∧ out.ret = some L ∧ out.self.links_ = [(P, L)] := by
  have hP := hsame first (List.mem_cons_self _ _)
  obtain ⟨out, hout, hcons, -, hok, -⟩ := find_or_create_datalink_created_facts
    ⟨[], some config⟩ cdr first.env first.local_id first.remote_association first.priority
    first.active config L (by simp [MulticastDataLinkMap.find]) rfl hlink hsend hrecv
  obtain ⟨hret, hself⟩ := hok hjoin
  have hlinks : out.self.links_ = [(P, L)] := by
    rw [hself, hP]
    simp [MulticastDataLinkMap.insert]
  have hreg : out.self.links_.find P = some L := by
    rw [hlinks]
    simp [MulticastDataLinkMap.find]
  have hrest := find_or_create_datalinks_hits cdr out.self P L rest
    (fun c h => hsame c (List.mem_cons_of_mem _ h)) hreg
  have hall : find_or_create_datalinks cdr ⟨[], some config⟩ (first :: rest) =
      some out :: rest.map (fun _ => some ⟨some L, out.self, []⟩) := by
    simp only [find_or_create_datalinks, hout]
    rw [hrest]
  rw [hall]
  refine ⟨by simp, ?_, ?_⟩
  · simp only [effects_of, effects_of_hits, List.append_nil]
    exact hcons
  · intro o ho
    rcases List.mem_cons.mp ho with ho | ho
    · exact ⟨out, ho, hret, hlinks⟩
    · obtain ⟨c, -, hc⟩ := List.mem_map.mp ho
      exact ⟨_, hc.symm, rfl, hlinks⟩

/-- Claim C2, atomicity under join failure. When the remote participant `P` is not
registered, the transport is configured, the link `L` and its strategies are allocated and
`join` of `L` returns false, the call returns the null pointer after the one failed join and
an error report, and leaves the transport as it was, so `P` is still not registered. A
following call for the same peer takes the creation path again: it constructs a new channel
`L2` and joins it. -/
theorem join_failure_is_atomic (self : MulticastTransport) (cdr : CDR)
    (env env2 : Collaborators) (local_id local_id2 : RepoId)
    (remote_association remote_association2 : AssociationData) (priority priority2 : Int)
    (active active2 : Bool) (config : MulticastConfiguration) (P : MulticastPeer)
    (L L2 : DataLinkPtr)
    (hP : RepoIdConverter.participantId remote_association.remote_id_ = P)
    (hP2 : RepoIdConverter.participantId remote_association2.remote_id_ = P)
    (hmiss : self.links_.find P = none) (hconfig : self.config_i_ = some config)
    (hlink : env.new_link = some L) (hsend : env.new_send_strategy = true)
    (hrecv : env.new_recv_strategy = true)
    (hjoin : env.join (if active then
        (connection_info_i_in cdr remote_association.remote_data_).1
      else config.group_address_) = false)
    (hlink2 : env2.new_link = some L2) (hsend2 : env2.new_send_strategy = true)
    (hrecv2 : env2.new_recv_strategy = true) :
    ∃ out, find_or_create_datalink self cdr env local_id remote_association priority active =
        some out ∧
      out.ret = none ∧ out.self = self ∧ out.self.links_ = self.links_ ∧
      out.self.links_.find P = none ∧
      joins out.effects = [(L, if active then
          (connection_info_i_in cdr remote_association.remote_data_).1
        else config.group_address_)] ∧
      Effect.error_join_failed (if active then
          (connection_info_i_in cdr remote_association.remote_data_).1
        else config.group_address_) ∈ out.effects ∧
      ∃ out2, find_or_create_datalink out.self cdr env2 local_id2 remote_association2
          priority2 active2 = some out2 ∧
        constructed out2.effects = [L2] ∧
        joins out2.effects = [(L2, if active2 then
            (connection_info_i_in cdr remote_association2.remote_data_).1
          else config.group_address_)] := by
  obtain ⟨out, hout, -, hjoins, -, hfail⟩ := find_or_create_datalink_created_facts self cdr
    env local_id remote_association priority active config L (hP ▸ hmiss) hconfig hlink hsend
    hrecv
  obtain ⟨hret, hself, herr⟩ := hfail hjoin
  obtain ⟨out2, hout2, hcons2, hjoins2, -, -⟩ := find_or_create_datalink_created_facts self
    cdr env2 local_id2 remote_association2 priority2 active2 config L2 (hP2 ▸ hmiss) hconfig
    hlink2 hsend2 hrecv2
  refine ⟨out, hout, hret, hself, by rw [hself], by rw [hself]; exact hmiss, hjoins, herr,
    out2, ?_, hcons2, hjoins2⟩
  rw [hself]
  exact hout2

/-- Claim C3, the hit path is a pure read. When the remote participant `P` is registered with
channel `C`, `find_or_create_datalink` with any local id, any association whose remote id
projects to `P`, any priority and any active flag returns `C`, makes no call on a
collaborator (so it constructs no channel and joins nothing), and leaves the links map and
the configuration as they were. -/
theorem hit_path_is_pure_read (self : MulticastTransport) (cdr : CDR) (env : Collaborators)
    (local_id : RepoId) (remote_association : AssociationData) (priority : Int)
    (active : Bool) (P : MulticastPeer) (C : DataLinkPtr)
    (hP : RepoIdConverter.participantId remote_association.remote_id_ = P)
    (hreg : self.links_.find P = some C) :
    ∃ out, find_or_create_datalink self cdr env local_id remote_association priority active =
        some out ∧
      out.ret = some C ∧ out.effects = [] ∧ constructed out.effects = [] ∧
      joins out.effects = [] ∧ out.self.links_ = self.links_ ∧
      out.self.config_i_ = self.config_i_ :=
  ⟨_, find_or_create_datalink_hit self cdr env local_id remote_association priority active C
    (hP ▸ hreg), rfl, rfl, rfl, rfl, rfl, rfl⟩

/-- Claim C4, registration on success. On a configured transport where the remote participant
`P` is not registered, a call that allocates the link `L` and its strategies and whose join
returns true returns `L`, the one channel it constructed, keeps the configuration, and leaves
the links map extended with the single entry `P ↦ L`: `P` now finds `L`, every other key
finds what it found before, the entries are those before plus `(P, L)`, the size grew by
one, and the key order of the map is kept. -/
theorem registration_on_success (self : MulticastTransport) (cdr : CDR) (env : Collaborators)
    (local_id : RepoId) (remote_association : AssociationData) (priority : Int)
    (active : Bool) (config : MulticastConfiguration) (P : MulticastPeer) (L : DataLinkPtr)
    (hP : RepoIdConverter.participantId remote_association.remote_id_ = P)
    (hmiss : self.links_.find P = none) (hconfig : self.config_i_ = some config)
    (hlink : env.new_link = some L) (hsend : env.new_send_strategy = true)
    (hrecv : env.new_recv_strategy = true)
    (hjoin : env.join (if active then
        (connection_info_i_in cdr remote_association.remote_data_).1
      else config.group_address_) = true) :
    ∃ out, find_or_create_datalink self cdr env local_id remote_association priority active =
        some out ∧
      out.ret = some L ∧ constructed out.effects = [L] ∧
      out.self.config_i_ = self.config_i_ ∧
      out.self.links_.find P = some L ∧
      (∀ k, k ≠ P → out.self.links_.find k = self.links_.find k) ∧
      out.self.links_.Perm ((P, L) :: self.links_) ∧
      out.self.links_.length = self.links_.length + 1 ∧
      (self.links_.ordered → out.self.links_.ordered) := by
  obtain ⟨out, hout, hcons, -, hok, -⟩ := find_or_create_datalink_created_facts self cdr
    env local_id remote_association priority active config L (hP ▸ hmiss) hconfig hlink hsend
    hrecv
  obtain ⟨hret, hself⟩ := hok hjoin
  have hlinks : out.self.links_ = self.links_.insert P L := by rw [hself, hP]
  refine ⟨out, hout, hret, hcons, by rw [hself, hconfig], ?_, ?_, ?_, ?_, ?_⟩
  · rw [hlinks]
    exact MulticastDataLinkMap.find_insert_self _ _ _ hmiss
  · intro k hk
    rw [hlinks]
    exact MulticastDataLinkMap.find_insert_other _ _ _ _ hk
  · rw [hlinks]
    exact MulticastDataLinkMap.insert_perm _ _ _ hmiss
  · rw [hlinks, (MulticastDataLinkMap.insert_perm _ _ _ hmiss).length_eq]
    simp
  · intro hord
    rw [hlinks]
    exact MulticastDataLinkMap.insert_ordered _ _ _ hord

/-- Claim C5, role-based address resolution. On the creation path (the remote participant is
not registered, the transport is configured, the link `L` and its strategies are allocated)
there is exactly one `join`, on `L`. With `active` true its address is the one the inbound
`connection_info_i` decodes from the association's `remote_data_`; with `active` false it is
the configured `group_address_`, whatever `remote_data_` holds. -/
theorem role_based_address_resolution (self : MulticastTransport) (cdr : CDR)
    (env : Collaborators) (local_id remote_id : RepoId) (priority : Int) (active : Bool)
    (config : MulticastConfiguration) (L : DataLinkPtr)
    (hmiss : self.links_.find (RepoIdConverter.participantId remote_id) = none)
    (hconfig : self.config_i_ = some config) (hlink : env.new_link = some L)
    (hsend : env.new_send_strategy = true) (hrecv : env.new_recv_strategy = true) :
    ∀ remote_data : TransportInterfaceInfo,
      ∃ out, find_or_create_datalink self cdr env local_id ⟨remote_id, remote_data⟩ priority
          active = some out ∧
        (active = true →
          joins out.effects = [(L, (connection_info_i_in cdr remote_data).1)]) ∧
        (active = false → joins out.effects = [(L, config.group_address_)]) := by
  intro remote_data
  obtain ⟨out, hout, -, hjoins, -, -⟩ := find_or_create_datalink_created_facts self cdr
    env local_id ⟨remote_id, remote_data⟩ priority active config L hmiss hconfig hlink hsend
    hrecv
  refine ⟨out, hout, ?_, ?_⟩
  · intro ha
    simpa [ha] using hjoins
  · intro ha
    simpa [ha] using hjoins

/-- The sharing invariant on the example of the specification: two passive calls for two
entities of the remote participant `2` construct the one channel `7`. -/
theorem sharing_invariant_witness :
    constructed (effects_of (find_or_create_datalinks NetworkAddress.cdr
      ⟨[], some sample_config⟩ [sample_call 7 10, sample_call 8 11])) = [7] ∧
    ∀ o ∈ find_or_create_datalinks NetworkAddress.cdr ⟨[], some sample_config⟩
        [sample_call 7 10, sample_call 8 11],
      ∃ out, o = some out ∧ out.ret = some 7 ∧ out.self.links_ = [(2, 7)] :=
  (sharing_invariant NetworkAddress.cdr sample_config 2 (sample_call 7 10)
    [sample_call 8 11] 7
    (by intro c hc; simp at hc; rcases hc with rfl | rfl <;> rfl)
    rfl rfl rfl rfl).2

/-- Atomicity on the example: a failed join of channel `7` leaves the empty links map empty
and the next call constructs and joins channel `8`. -/
theorem join_failure_is_atomic_witness :
    ∃ out, find_or_create_datalink ⟨[], some sample_config⟩ NetworkAddress.cdr
        (sample_env 7 false) ⟨1, 10⟩ (sample_association 10) 0 true = some out ∧
      out.ret = none ∧ out.self = ⟨[], some sample_config⟩ ∧ out.self.links_ = [] ∧
      out.self.links_.find 2 = none ∧
      joins out.effects = [(7, if true then
          (connection_info_i_in NetworkAddress.cdr (sample_association 10).remote_data_).1
        else sample_config.group_address_)] ∧
      Effect.error_join_failed (if true then
          (connection_info_i_in NetworkAddress.cdr (sample_association 10).remote_data_).1
        else sample_config.group_address_) ∈ out.effects ∧
      ∃ out2, find_or_create_datalink out.self NetworkAddress.cdr (sample_env 8 true)
          ⟨1, 11⟩ (sample_association 11) 0 false = some out2 ∧
        constructed out2.effects = [8] ∧
        joins out2.effects = [(8, if false then
            (connection_info_i_in NetworkAddress.cdr (sample_association 11).remote_data_).1
          else sample_config.group_address_)] :=
  join_failure_is_atomic ⟨[], some sample_config⟩ NetworkAddress.cdr (sample_env 7 false)
    (sample_env 8 true) ⟨1, 10⟩ ⟨1, 11⟩ (sample_association 10) (sample_association 11) 0 0
    true false sample_config 2 7 8 rfl rfl rfl rfl rfl rfl rfl rfl rfl rfl rfl

/-- The hit path on the example: with `2 ↦ 7` registered, a call for another entity of the
participant `2` returns `7` and does nothing else, even on an unconfigured transport whose
collaborators can allocate nothing. -/
theorem hit_path_is_pure_read_witness :
    ∃ out, find_or_create_datalink ⟨[(2, 7)], none⟩ NetworkAddress.cdr
        ⟨none, false, false, fun _ => false⟩ ⟨1, 11⟩ (sample_association 11) 0 true =
        some out ∧
      out.ret = some 7 ∧ out.effects = [] ∧ constructed out.effects = [] ∧
      joins out.effects = [] ∧ out.self.links_ = [(2, 7)] ∧ out.self.config_i_ = none :=
  hit_path_is_pure_read ⟨[(2, 7)], none⟩ NetworkAddress.cdr
    ⟨none, false, false, fun _ => false⟩ ⟨1, 11⟩ (sample_association 11) 0 true 2 7 rfl rfl

/-- Registration on the example: with `1 ↦ 5` and `3 ↦ 6` registered, a successful call for
the participant `2` registers `2 ↦ 7`. -/
theorem registration_on_success_witness :
    ∃ out, find_or_create_datalink ⟨[(1, 5), (3, 6)], some sample_config⟩ NetworkAddress.cdr
        (sample_env 7 true) ⟨1, 10⟩ (sample_association 10) 0 false = some out ∧
      out.ret = some 7 ∧ constructed out.effects = [7] ∧
      out.self.config_i_ = some sample_config ∧
      out.self.links_.find 2 = some 7 ∧
      (∀ k, k ≠ 2 → out.self.links_.find k =
        MulticastDataLinkMap.find [(1, 5), (3, 6)] k) ∧
      out.self.links_.Perm ((2, 7) :: [(1, 5), (3, 6)]) ∧
      out.self.links_.length = 2 + 1 ∧
      (MulticastDataLinkMap.ordered [(1, 5), (3, 6)] → out.self.links_.ordered) :=
  registration_on_success ⟨[(1, 5), (3, 6)], some sample_config⟩ NetworkAddress.cdr
    (sample_env 7 true) ⟨1, 10⟩ (sample_association 10) 0 false sample_config 2 7 rfl rfl
    rfl rfl rfl rfl rfl

/-- Address resolution on the example: an active call joins the address decoded from the
descriptor of the peer. -/
theorem role_based_address_resolution_witness :
    ∃ out, find_or_create_datalink ⟨[], some sample_config⟩ NetworkAddress.cdr
        (sample_env 7 true) ⟨1, 10⟩ ⟨⟨2, 10⟩, sample_remote_data⟩ 0 true = some out ∧
      (true = true →
        joins out.effects =
          [(7, (connection_info_i_in NetworkAddress.cdr sample_remote_data).1)]) ∧
      (true = false → joins out.effects = [(7, sample_config.group_address_)]) :=
  role_based_address_resolution ⟨[], some sample_config⟩ NetworkAddress.cdr
    (sample_env 7 true) ⟨1, 10⟩ ⟨2, 10⟩ 0 true sample_config 7 rfl rfl rfl rfl rfl
    sample_remote_data

/-! ## Reachable states -/

theorem find_or_create_datalink_self (self : MulticastTransport) (cdr : CDR)
    (env : Collaborators) (local_id : RepoId) (remote_association : AssociationData)
    (priority : Int) (active : Bool) (out : Outcome (Option DataLinkPtr))
    (h : find_or_create_datalink self cdr env local_id remote_association priority active =
      some out) :
    out.self = self ∨
      ∃ link, env.new_link = some link ∧
        self.links_.find (RepoIdConverter.participantId remote_association.remote_id_) =
          none ∧
        out.self = ⟨self.links_.insert
          (RepoIdConverter.participantId remote_association.remote_id_) link,
          self.config_i_⟩ := by
  unfold find_or_create_datalink at h
  cases hf : self.links_.find (RepoIdConverter.participantId remote_association.remote_id_) with
  | some found =>
    simp only [hf, Option.some.injEq] at h
    exact Or.inl (h ▸ rfl)
  | none =>
    simp only [hf] at h
    cases hc : self.config_i_ with
    | none => simp [hc] at h
    | some config =>
      simp only [hc] at h
      cases hl : env.new_link with
      | none =>
        simp only [hl, Option.some.injEq] at h
        exact Or.inl (h ▸ rfl)
      | some link =>
        simp only [hl] at h
        split_ifs at h <;> cases h <;> simp

theorem I1_nil : I1 [] := by
  simp [I1, MulticastDataLinkMap.peers, MulticastDataLinkMap.links]

theorem MulticastDataLinkMap.ordered_nil : MulticastDataLinkMap.ordered [] := by
  simp [MulticastDataLinkMap.ordered]

theorem Reachable.wf (cdr : CDR) (self : MulticastTransport) (h : Reachable cdr self) :
    I1 self.links_ ∧ self.links_.ordered := by
  induction h with
  | init config => exact ⟨I1_nil, MulticastDataLinkMap.ordered_nil⟩
  | create self c out _ hfresh hout ih =>
    rcases find_or_create_datalink_self self cdr c.env c.local_id c.remote_association
      c.priority c.active out hout with hs | ⟨link, hlink, hmiss, hs⟩
    · rw [hs]
      exact ih
    · rw [hs]
      exact ⟨I1_insert _ _ _ ih.1 hmiss (hfresh link hlink),
        MulticastDataLinkMap.insert_ordered _ _ _ ih.2⟩
  | release self link release_pending _ ih =>
    exact ⟨I1_erase_link _ _ ih.1, MulticastDataLinkMap.erase_link_ordered _ _ ih.2⟩
  | shutdown self out _ hout ih =>
    unfold shutdown_i at hout
    cases hc : self.config_i_ with
    | none => simp [hc] at hout
    | some config =>
      simp only [hc, Option.some.injEq] at hout
      rw [← hout]
      exact ⟨I1_nil, MulticastDataLinkMap.ordered_nil⟩
  | configure self config _ ih =>
    unfold configure_i
    cases dynamic_cast config <;> exact ih

theorem MulticastDataLinkMap.not_mem_erase_link_of_count (m : MulticastDataLinkMap)
    (link : DataLinkPtr) (h : m.links.count link ≤ 1) : link ∉ (m.erase_link link).links := by
  induction m with
  | nil => simp [MulticastDataLinkMap.erase_link, MulticastDataLinkMap.links]
  | cons e1 rest ih =>
    obtain ⟨k, v⟩ := e1
    by_cases hv : link = v
    · simp only [MulticastDataLinkMap.erase_link, hv, if_true]
      have hc : (MulticastDataLinkMap.links rest).count v = 0 := by
        unfold MulticastDataLinkMap.links at h ⊢
        simp only [List.map_cons, hv, List.count_cons_self] at h
        omega
      exact List.count_eq_zero.mp hc
    · simp only [MulticastDataLinkMap.erase_link, hv, if_false]
      have hc : (MulticastDataLinkMap.links rest).count link ≤ 1 := by
        unfold MulticastDataLinkMap.links at h ⊢
        simpa [List.count_cons, Ne.symm hv] using h
      intro hm
      unfold MulticastDataLinkMap.links at hm
      simp only [List.map_cons, List.mem_cons] at hm
      rcases hm with hm | hm
      · exact hv hm
      · exact ih hc hm

theorem MulticastDataLinkMap.erase_link_perm (m : MulticastDataLinkMap)
    (link : DataLinkPtr) (peer : MulticastPeer) (h : m.find_link link = some peer) :
    m.Perm ((peer, link) :: m.erase_link link) := by
  induction m with
  | nil => simp [MulticastDataLinkMap.find_link] at h
  | cons e rest ih =>
    obtain ⟨k, v⟩ := e
    by_cases hv : link = v
    · simp only [MulticastDataLinkMap.find_link, hv, if_true, Option.some.injEq] at h
      simp [MulticastDataLinkMap.erase_link, hv, h]
    · simp only [MulticastDataLinkMap.find_link, hv, if_false] at h
      simp only [MulticastDataLinkMap.erase_link, hv, if_false]
      exact ((ih h).cons (k, v)).trans (List.Perm.swap _ _ _)

theorem release_datalink_i_twice (self : MulticastTransport) (C : DataLinkPtr)
    (release_pending release_pending2 : Bool) (hone : self.links_.links.count C ≤ 1) :
    (release_datalink_i (release_datalink_i self C release_pending).self C
        release_pending2).self = (release_datalink_i self C release_pending).self := by
  simp only [release_datalink_i]
  rw [MulticastDataLinkMap.erase_link_of_not_mem _ _
    (MulticastDataLinkMap.not_mem_erase_link_of_count _ _ hone)]

theorem release_datalink_i_of_not_mem (self : MulticastTransport) (C : DataLinkPtr)
    (release_pending : Bool) (hC : C ∉ self.links_.links) :
    (release_datalink_i self C release_pending).self = self := by
  simp only [release_datalink_i]
  rw [MulticastDataLinkMap.erase_link_of_not_mem _ _ hC]

/-- A links map that no run of the transport produces, the channel `7` under the two keys
`1` and `2`: there a second release of `7` removes the second entry. It is the guarantee of
exactly one matching entry, which the reachable states give, that makes a release final. -/
theorem release_twice_differs_outside_I1 :
    ¬ I1 [(1, 7), (2, 7)] ∧
      (release_datalink_i ⟨[(1, 7), (2, 7)], none⟩ 7 false).self.links_ = [(2, 7)] ∧
      (release_datalink_i (release_datalink_i ⟨[(1, 7), (2, 7)], none⟩ 7 false).self 7
        false).self.links_ = [] := by
  decide

/-- Claim C8, release idempotence. In every state of the transport (every state reachable
from an empty links map, where each allocated link is fresh) and for every channel `C`,
`release_datalink_i(C)` applied twice leaves the transport that one application leaves, for
all values of `release_pending`; releasing a channel that is the value of no entry leaves
the transport as it was; and in neither case is any call made on a collaborator, so no
error is reported. -/
theorem release_is_idempotent (cdr : CDR) (self : MulticastTransport) (C : DataLinkPtr)
    (release_pending release_pending2 : Bool) (hreach : Reachable cdr self) :
    (release_datalink_i (release_datalink_i self C release_pending).self C
        release_pending2).self = (release_datalink_i self C release_pending).self ∧
      (release_datalink_i (release_datalink_i self C release_pending).self C
        release_pending2).self.links_ =
        (release_datalink_i self C release_pending).self.links_ ∧
      (release_datalink_i (release_datalink_i self C release_pending).self C
        release_pending2).effects = [] ∧
      (release_datalink_i self C release_pending).effects = [] ∧
      (C ∉ self.links_.links →
        (release_datalink_i self C release_pending).self = self ∧
        (release_datalink_i self C release_pending).self.links_ = self.links_ ∧
        (release_datalink_i self C release_pending).effects = []) := by
  have hone : self.links_.links.count C ≤ 1 :=
    List.nodup_iff_count_le_one.mp (Reachable.wf cdr self hreach).1.2 C
  have htwice := release_datalink_i_twice self C release_pending release_pending2 hone
  refine ⟨htwice, by rw [htwice], rfl, rfl, ?_⟩
  intro hC
  have hsame := release_datalink_i_of_not_mem self C release_pending hC
  exact ⟨hsame, by rw [hsame], rfl⟩

/-- Release idempotence on the example: after two calls have registered `2 ↦ 7` and
`3 ↦ 8`, the channel `7` is released once and for all, and `3 ↦ 8` stays. -/
theorem release_is_idempotent_witness :
    (release_datalink_i (release_datalink_i ⟨[(2, 7), (3, 8)], some sample_config⟩ 7
        false).self 7 true).self =
        (release_datalink_i ⟨[(2, 7), (3, 8)], some sample_config⟩ 7 false).self ∧
      (release_datalink_i ⟨[(2, 7), (3, 8)], some sample_config⟩ 7 false).self.links_ =
        [(3, 8)] :=
  ⟨(release_is_idempotent NetworkAddress.cdr ⟨[(2, 7), (3, 8)], some sample_config⟩ 7 false
    true
    (Reachable.create ⟨[(2, 7)], some sample_config⟩
      ⟨sample_env 8 true, ⟨1, 11⟩, ⟨⟨3, 11⟩, sample_remote_data⟩, 0, false⟩
      ⟨some 8, ⟨[(2, 7), (3, 8)], some sample_config⟩,
        [Effect.new_BestEffortMulticast 8 1 3 false, Effect.configure 8 sample_config,
          Effect.send_strategy 8, Effect.receive_strategy 8,
          Effect.join 8 sample_address]⟩
      (Reachable.create ⟨[], some sample_config⟩ (sample_call 7 10)
        ⟨some 7, ⟨[(2, 7)], some sample_config⟩,
          [Effect.new_BestEffortMulticast 7 1 2 false, Effect.configure 7 sample_config,
            Effect.send_strategy 7, Effect.receive_strategy 7,
            Effect.join 7 sample_address]⟩
        (Reachable.init (some sample_config))
        (by intro link _; simp [MulticastDataLinkMap.links])
        rfl)
      (by intro link hlink; cases hlink; decide)
      rfl)).1,
    by decide⟩

/-- Claim C9, release removes exactly the matching entry. In a links map that satisfies I1
and registers the channel `C` under the participant `P`, after `release_datalink_i(C)` the
map has no entry for `P` and no entry whose value is `C`, every key other than `P` finds
what it found before, the entries before the call are `(P, C)` plus the entries after it
(one entry fewer), and the configuration is kept; the outcome is the same for both values of
`release_pending`. -/
theorem release_removes_matching_entry (self : MulticastTransport) (P : MulticastPeer)
    (C : DataLinkPtr) (release_pending release_pending2 : Bool) (hI1 : I1 self.links_)
    (hreg : self.links_.find P = some C) :
    (release_datalink_i self C release_pending).self.links_.find P = none ∧
      C ∉ (release_datalink_i self C release_pending).self.links_.links ∧
      (∀ k, k ≠ P → (release_datalink_i self C release_pending).self.links_.find k =
        self.links_.find k) ∧
      self.links_.Perm ((P, C) :: (release_datalink_i self C release_pending).self.links_) ∧
      (release_datalink_i self C release_pending).self.links_.length + 1 =
        self.links_.length ∧
      (release_datalink_i self C release_pending).self.config_i_ = self.config_i_ ∧
      release_datalink_i self C release_pending =
        release_datalink_i self C release_pending2 := by
  have hmem := MulticastDataLinkMap.mem_of_find _ _ _ hreg
  have hfl := MulticastDataLinkMap.find_link_of_mem _ _ _ hI1.2 hmem
  have hC : C ∈ self.links_.links := by
    unfold MulticastDataLinkMap.links
    exact List.mem_map_of_mem Prod.snd hmem
  refine ⟨?_, ?_, ?_, ?_, ?_, rfl, rfl⟩
  · exact MulticastDataLinkMap.find_erase_link_self _ _ _ hI1.1 hfl
  · exact MulticastDataLinkMap.not_mem_erase_link _ _ hI1.2
  · intro k hk
    exact MulticastDataLinkMap.find_erase_link_other _ _ _ _ hfl hk
  · exact MulticastDataLinkMap.erase_link_perm _ _ _ hfl
  · exact MulticastDataLinkMap.length_erase_link _ _ hC

/-- Release on the example: releasing the channel `7` from `1 ↦ 5, 2 ↦ 7, 3 ↦ 6` removes
the entry of the participant `2` and no other. -/
theorem release_removes_matching_entry_witness :
    (release_datalink_i ⟨[(1, 5), (2, 7), (3, 6)], some sample_config⟩ 7
        false).self.links_ = [(1, 5), (3, 6)] ∧
      (release_datalink_i ⟨[(1, 5), (2, 7), (3, 6)], some sample_config⟩ 7
        false).self.links_.find 2 = none :=
  ⟨by decide,
    (release_removes_matching_entry ⟨[(1, 5), (2, 7), (3, 6)], some sample_config⟩ 2 7 false
      true (by decide) (by decide)).1⟩

theorem find_or_create_datalink_unconfigured (cdr : CDR) (env : Collaborators)
    (local_id : RepoId) (remote_association : AssociationData) (priority : Int)
    (active : Bool) :
    find_or_create_datalink ⟨[], none⟩ cdr env local_id remote_association priority active =
      none := by
  simp [find_or_create_datalink, MulticastDataLinkMap.find]

theorem apply_request_unconfigured (cdr : CDR) (r : Request) (s : MulticastTransport)
    (hr : r.configures = false) (h : apply_request cdr ⟨[], none⟩ r = some s) :
    s = ⟨[], none⟩ := by
  cases r with
  | find_or_create_datalink c =>
    simp [apply_request, find_or_create_datalink_unconfigured] at h
  | configure_i config =>
    simp only [Request.configures] at hr
    cases hd : dynamic_cast config with
    | none =>
      simp only [apply_request, configure_i, hd, Option.some.injEq] at h
      exact h.symm
    | some c => simp [hd] at hr
  | shutdown_i => simp [apply_request, shutdown_i] at h
  | acked link_acked local_id remote_id =>
    simp only [apply_request, acked, MulticastDataLinkMap.find, Option.some.injEq] at h
    exact h.symm
  | remove_ack local_id remote_id =>
    simp only [apply_request, remove_ack, Option.some.injEq] at h
    exact h.symm
  | release_datalink_i link release_pending =>
    simp only [apply_request, release_datalink_i, MulticastDataLinkMap.erase_link,
      Option.some.injEq] at h
    exact h.symm
  | reliability_lost_i link participant_id =>
    simp only [apply_request, reliability_lost_i, MulticastDataLinkMap.find_link,
      Option.some.injEq] at h
    exact h.symm

theorem run_requests_unconfigured (cdr : CDR) (rs : List Request) (s : MulticastTransport)
    (hrs : ∀ r ∈ rs, r.configures = false) (h : run_requests cdr ⟨[], none⟩ rs = some s) :
    s = ⟨[], none⟩ := by
  induction rs with
  | nil =>
    simp only [run_requests, Option.some.injEq] at h
    exact h.symm
  | cons r rest ih =>
    simp only [run_requests] at h
    cases ha : apply_request cdr ⟨[], none⟩ r with
    | none => simp [ha] at h
    | some next =>
      simp only [ha] at h
      have hnext := apply_request_unconfigured cdr r next (hrs r (List.mem_cons_self _ _)) ha
      rw [hnext] at h
      exact ih (fun r1 h1 => hrs r1 (List.mem_cons_of_mem _ h1)) h

/-- Claim C10, shutdown clears state. On a configured transport `shutdown_i` has an outcome:
it releases its reference on the configuration, and leaves the links map empty and the
configuration pointer null. After any sequence of calls of the member functions that does
not contain a `configure_i` with a `MulticastConfiguration`, `find_or_create_datalink` has
no outcome (it dereferences the null configuration pointer), so it returns no channel.
Once `configure_i` has been called with a `MulticastConfiguration`, a call whose link and
strategies are allocated and whose join succeeds returns its channel again. -/
theorem shutdown_clears_state (self : MulticastTransport) (cdr : CDR)
    (config : MulticastConfiguration) (hconfig : self.config_i_ = some config) :
    ∃ out, shutdown_i self = some out ∧
      out.self.links_ = [] ∧ out.self.config_i_ = none ∧
      Effect.remove_ref config ∈ out.effects ∧
      (∀ (rs : List Request) (s : MulticastTransport),
        (∀ r ∈ rs, r.configures = false) → run_requests cdr out.self rs = some s →
        ∀ (env : Collaborators) (local_id : RepoId) (remote_association : AssociationData)
          (priority : Int) (active : Bool),
          find_or_create_datalink s cdr env local_id remote_association priority active =
            none) ∧
      (∀ (config2 : MulticastConfiguration) (env : Collaborators) (local_id : RepoId)
          (remote_association : AssociationData) (priority : Int) (active : Bool)
          (L : DataLinkPtr),
        env.new_link = some L → env.new_send_strategy = true →
        env.new_recv_strategy = true →
        env.join (if active then
            (connection_info_i_in cdr remote_association.remote_data_).1
          else config2.group_address_) = true →
        ∃ out2, find_or_create_datalink
            (configure_i out.self (some (.multicast config2))).self cdr env local_id
            remote_association priority active = some out2 ∧
          out2.ret = some L) := by
  refine ⟨⟨(), ⟨[], none⟩,
    self.links_.map (fun it => Effect.transport_shutdown it.2) ++ [Effect.remove_ref config]⟩,
    by simp only [shutdown_i, hconfig], rfl, rfl, by simp, ?_, ?_⟩
  · intro rs s hrs hrun env local_id remote_association priority active
    rw [run_requests_unconfigured cdr rs s hrs hrun]
    exact find_or_create_datalink_unconfigured cdr env local_id remote_association priority
      active
  · intro config2 env local_id remote_association priority active L hlink hsend hrecv hjoin
    obtain ⟨out2, hout2, -, -, hok, -⟩ := find_or_create_datalink_created_facts
      ⟨[], some config2⟩ cdr env local_id remote_association priority active config2 L
      (by simp [MulticastDataLinkMap.find]) rfl hlink hsend hrecv
    exact ⟨out2, hout2, (hok hjoin).1⟩

/-- Shutdown on the example: a transport with `2 ↦ 7` registered is left with an empty links
map and a null configuration pointer. -/
theorem shutdown_clears_state_witness :
    shutdown_i ⟨[(2, 7)], some sample_config⟩ =
        some ⟨(), ⟨[], none⟩, [Effect.transport_shutdown 7, Effect.remove_ref sample_config]⟩ ∧
      find_or_create_datalink ⟨[], none⟩ NetworkAddress.cdr (sample_env 8 true) ⟨1, 10⟩
        (sample_association 10) 0 false = none := by
  obtain ⟨out, hout, hlinks, hcfg, -, hstuck, -⟩ :=
    shutdown_clears_state ⟨[(2, 7)], some sample_config⟩ NetworkAddress.cdr sample_config rfl
  refine ⟨rfl, ?_⟩
  have hself : out.self = ⟨[], none⟩ := by
    cases hs : out.self with
    | mk links config_i =>
      rw [hs] at hlinks hcfg
      simp only at hlinks hcfg
      rw [hlinks, hcfg]
  have h := hstuck [] ⟨[], none⟩ (by simp) (by rw [hself]; rfl) (sample_env 8 true) ⟨1, 10⟩
    (sample_association 10) 0 false
  exact h

/-! ## The claims on `configure_i` and the connection descriptors -/

/-- Claim C11, `configure_i` accepts only a `MulticastConfiguration`. The call returns 0
exactly when its argument is a `MulticastConfiguration`; it then keeps that configuration
and takes one reference on it (its only call on a collaborator). For every other argument,
the null pointer included, it returns -1, reports the error and leaves the configuration
pointer null. The links map is not touched. -/
theorem configure_i_accepts_only_multicast (self : MulticastTransport)
    (config : Option TransportConfiguration) :
    ((configure_i self config).ret = 0 ↔ ∃ c, config = some (.multicast c)) ∧
      (∀ c, config = some (.multicast c) →
        (configure_i self config).ret = 0 ∧
        (configure_i self config).self.config_i_ = some c ∧
        (configure_i self config).effects = [Effect.add_ref c]) ∧
      ((¬ ∃ c, config = some (.multicast c)) →
        (configure_i self config).ret = -1 ∧
        (configure_i self config).self.config_i_ = none ∧
        (configure_i self config).effects = [Effect.error_invalid_configuration]) ∧
      (configure_i self config).self.links_ = self.links_ := by
  rcases config with _ | c | kind <;> simp [configure_i, dynamic_cast]

theorem NetworkAddress.decode_encode (a : ACE_INET_Addr)
    (h : NetworkAddress.representable a) :
    NetworkAddress.decode (NetworkAddress.encode a) = a := by
  obtain ⟨host, port⟩ := a
  obtain ⟨hh, hp⟩ := h
  simp only at hh hp
  simp only [NetworkAddress.encode, NetworkAddress.decode, octet]
  congr 1 <;> omega

theorem connection_info_i_out_configured (self : MulticastTransport) (cdr : CDR)
    (config : MulticastConfiguration) (info : TransportInterfaceInfo)
    (hconfig : self.config_i_ = some config) :
    connection_info_i_out self cdr info =
      some ⟨(0, ⟨TRANSPORT_INTERFACE_ID, ⟨(cdr.insert config.group_address_).length,
        (cdr.insert config.group_address_).length, cdr.insert config.group_address_⟩⟩),
        self, []⟩ := by
  simp only [connection_info_i_out, hconfig]

/-- Claim C12, the codec round trip. For every representable address `a`, decoding the
encoding of `a` yields `a`. For the transport: with any codec that decodes the encoding of
the configured `group_address_` back to it, the outbound `connection_info_i` fills in a
descriptor from which the inbound `connection_info_i` returns `group_address_`, without a
warning. -/
theorem codec_round_trip :
    (∀ a : ACE_INET_Addr, NetworkAddress.representable a →
      NetworkAddress.decode (NetworkAddress.encode a) = a) ∧
      ∀ (cdr : CDR) (self : MulticastTransport) (config : MulticastConfiguration)
        (info : TransportInterfaceInfo),
        self.config_i_ = some config →
        cdr.extract (cdr.insert config.group_address_) = config.group_address_ →
        ∃ out, connection_info_i_out self cdr info = some out ∧
          connection_info_i_in cdr out.ret.2 = (config.group_address_, []) := by
  refine ⟨NetworkAddress.decode_encode, ?_⟩
  intro cdr self config info hconfig hround
  refine ⟨_, connection_info_i_out_configured self cdr config info hconfig, ?_⟩
  simp [connection_info_i_in, hround]

/-- The round trip on the example: the descriptor of a transport configured with
`239.1.1.1:4000` decodes to that address. -/
theorem codec_round_trip_witness :
    NetworkAddress.decode (NetworkAddress.encode sample_address) = sample_address ∧
      ∃ out, connection_info_i_out ⟨[], some sample_config⟩ NetworkAddress.cdr
          empty_remote_data = some out ∧
        connection_info_i_in NetworkAddress.cdr out.ret.2 = (sample_address, []) :=
  ⟨codec_round_trip.1 sample_address (by decide),
    codec_round_trip.2 NetworkAddress.cdr ⟨[], some sample_config⟩ sample_config
      empty_remote_data rfl (by decide)⟩

/-- Claim C14, a tag mismatch is not fatal. For every blob and every two tags `t1` and `t2`
the inbound `connection_info_i` returns the same address, the one decoded from the first
`length()` bytes of the blob; the tag only decides whether a warning is reported: none for
`0x4d435354`, one for any other tag. -/
theorem tag_mismatch_is_not_fatal (cdr : CDR) (t1 t2 : Int) (data : TransportInterfaceBLOB) :
    (connection_info_i_in cdr ⟨t1, data⟩).1 = (connection_info_i_in cdr ⟨t2, data⟩).1 ∧
      (connection_info_i_in cdr ⟨t1, data⟩).1 = cdr.extract (data.buffer.take data.length) ∧
      (t1 = 0x4d435354 → (connection_info_i_in cdr ⟨t1, data⟩).2 = []) ∧
      (t1 ≠ 0x4d435354 →
        (connection_info_i_in cdr ⟨t1, data⟩).2 = [Effect.warning_transport_id t1]) := by
  refine ⟨rfl, rfl, ?_, ?_⟩
  · intro h
    simp [connection_info_i_in, TRANSPORT_INTERFACE_ID, h]
  · intro h
    simp [connection_info_i_in, TRANSPORT_INTERFACE_ID, h]

/-- Claim C15, the outbound descriptor. On a configured transport the outbound
`connection_info_i` returns 0 and writes a descriptor whose tag is `0x4d435354` and whose
blob is the serialized `group_address_`, with length and maximum both equal to the
serialized length. It changes nothing in the transport and calls no collaborator. The
descriptor is the same for every transport configured with the same group address,
whatever its links map, its reliability flag and the previous value of the descriptor. -/
theorem outbound_descriptor (self : MulticastTransport) (cdr : CDR)
    (config : MulticastConfiguration) (info : TransportInterfaceInfo)
    (hconfig : self.config_i_ = some config) :
    ∃ out, connection_info_i_out self cdr info = some out ∧
      out.ret.1 = 0 ∧ out.ret.2.transport_id = 0x4d435354 ∧
      out.ret.2.data.buffer = cdr.insert config.group_address_ ∧
      out.ret.2.data.length = (cdr.insert config.group_address_).length ∧
      out.ret.2.data.maximum = (cdr.insert config.group_address_).length ∧
      out.self = self ∧ out.effects = [] ∧
      ∀ (self2 : MulticastTransport) (config2 : MulticastConfiguration)
        (info2 : TransportInterfaceInfo),
        self2.config_i_ = some config2 → config2.group_address_ = config.group_address_ →
        ∃ out2, connection_info_i_out self2 cdr info2 = some out2 ∧ out2.ret = out.ret := by
  refine ⟨_, connection_info_i_out_configured self cdr config info hconfig, rfl, rfl, rfl,
    rfl, rfl, rfl, rfl, ?_⟩
  intro self2 config2 info2 hconfig2 hsame
  refine ⟨_, connection_info_i_out_configured self2 cdr config2 info2 hconfig2, ?_⟩
  simp [hsame]

/-- The descriptor on the example: a transport configured with `239.1.1.1:4000` publishes
the tag `0x4d435354` and the six bytes `239 1 1 1 15 160`. -/
theorem outbound_descriptor_witness :
    connection_info_i_out ⟨[(2, 7)], some sample_config⟩ NetworkAddress.cdr
        empty_remote_data =
      some ⟨(0, ⟨0x4d435354, ⟨6, 6, [239, 1, 1, 1, 15, 160]⟩⟩),
        ⟨[(2, 7)], some sample_config⟩, []⟩ := by
  obtain ⟨out, hout, -⟩ := outbound_descriptor ⟨[(2, 7)], some sample_config⟩
    NetworkAddress.cdr sample_config empty_remote_data rfl
  rw [hout]
  simp only [connection_info_i_out, Option.some.injEq] at hout
  rw [← hout]
  decide

/-- Claim C13 as stated fails: given an empty blob, too short for any encoding, the inbound
`connection_info_i` returns an address (the default-constructed one) and reports nothing,
and an active `find_or_create_datalink` joins that address and, the join succeeding,
registers and returns the channel. -/
theorem short_blob_is_decoded_and_joined :
    connection_info_i_in NetworkAddress.cdr empty_remote_data = (⟨0, 0⟩, []) ∧
      find_or_create_datalink ⟨[], some sample_config⟩ NetworkAddress.cdr (sample_env 7 true)
          ⟨1, 10⟩ ⟨⟨2, 10⟩, empty_remote_data⟩ 0 true =
        some ⟨some 7, ⟨[(2, 7)], some sample_config⟩,
          [Effect.new_BestEffortMulticast 7 1 2 true, Effect.configure 7 sample_config,
            Effect.send_strategy 7, Effect.receive_strategy 7, Effect.join 7 ⟨0, 0⟩]⟩ := by
  decide

/-- Claim C13 as amended, the decode has no failure result. For every blob, also one too
short to be an encoding, the inbound `connection_info_i` returns the address that the
extraction yields from the first `length()` bytes and reports at most the tag warning. An
active `find_or_create_datalink` on the creation path joins that address, and returns the
channel or the null pointer as the join succeeds or fails. -/
theorem decode_has_no_failure_result (self : MulticastTransport) (cdr : CDR)
    (env : Collaborators) (local_id remote_id : RepoId) (priority : Int)
    (config : MulticastConfiguration) (L : DataLinkPtr) (remote_data : TransportInterfaceInfo)
    (hmiss : self.links_.find (RepoIdConverter.participantId remote_id) = none)
    (hconfig : self.config_i_ = some config) (hlink : env.new_link = some L)
    (hsend : env.new_send_strategy = true) (hrecv : env.new_recv_strategy = true) :
    (connection_info_i_in cdr remote_data).1 =
        cdr.extract (remote_data.data.buffer.take remote_data.data.length) ∧
      (∀ e ∈ (connection_info_i_in cdr remote_data).2,
        e = Effect.warning_transport_id remote_data.transport_id) ∧
      ∃ out, find_or_create_datalink self cdr env local_id ⟨remote_id, remote_data⟩ priority
          true = some out ∧
        joins out.effects =
          [(L, cdr.extract (remote_data.data.buffer.take remote_data.data.length))] ∧
        (env.join (cdr.extract (remote_data.data.buffer.take remote_data.data.length)) =
          true → out.ret = some L) ∧
        (env.join (cdr.extract (remote_data.data.buffer.take remote_data.data.length)) =
          false → out.ret = none) := by
  obtain ⟨out, hout, -, hjoins, hok, hfail⟩ := find_or_create_datalink_created_facts self cdr
    env local_id ⟨remote_id, remote_data⟩ priority true config L hmiss hconfig hlink hsend
    hrecv
  refine ⟨rfl, ?_, out, hout, hjoins, fun h => (hok h).1, fun h => (hfail h).1⟩
  intro e he
  rw [connection_info_i_in_effects] at he
  split_ifs at he with h
  · simp at he
  · simpa using he

/-- The decode on the example: an active call given a one-byte blob joins the address
decoded from that byte string. -/
theorem decode_has_no_failure_result_witness :
    ∃ out, find_or_create_datalink ⟨[], some sample_config⟩ NetworkAddress.cdr
        (sample_env 7 true) ⟨1, 10⟩ ⟨⟨2, 10⟩, ⟨TRANSPORT_INTERFACE_ID, ⟨1, 1, [239]⟩⟩⟩ 0
        true = some out ∧
      joins out.effects = [(7, NetworkAddress.decode [239])] ∧ out.ret = some 7 := by
  obtain ⟨-, -, out, hout, hjoins, hok, -⟩ := decode_has_no_failure_result
    ⟨[], some sample_config⟩ NetworkAddress.cdr (sample_env 7 true) ⟨1, 10⟩ ⟨2, 10⟩ 0
    sample_config 7 ⟨TRANSPORT_INTERFACE_ID, ⟨1, 1, [239]⟩⟩ rfl rfl rfl rfl rfl
  exact ⟨out, hout, hjoins, hok rfl⟩

/-! ## The claims on `reliability_lost_i`, channel shutdown and the mode of a channel -/

theorem MulticastDataLinkMap.find_link_of_mem_of_count (m : MulticastDataLinkMap)
    (link : DataLinkPtr) (peer : MulticastPeer) (hone : m.links.count link ≤ 1)
    (h : (peer, link) ∈ m) : m.find_link link = some peer := by
  induction m with
  | nil => simp at h
  | cons e rest ih =>
    obtain ⟨k, v⟩ := e
    by_cases hv : link = v
    · have hc : (MulticastDataLinkMap.links rest).count v = 0 := by
        unfold MulticastDataLinkMap.links at hone ⊢
        simp only [List.map_cons, hv, List.count_cons_self] at hone
        omega
      rcases List.mem_cons.mp h with h1 | h1
      · have hk : peer = k := congrArg Prod.fst h1
        simp [MulticastDataLinkMap.find_link, hv, hk]
      · exfalso
        apply List.count_eq_zero.mp hc
        unfold MulticastDataLinkMap.links
        exact hv ▸ List.mem_map_of_mem Prod.snd h1
    · have hc : (MulticastDataLinkMap.links rest).count link ≤ 1 := by
        unfold MulticastDataLinkMap.links at hone ⊢
        simpa [List.count_cons, Ne.symm hv] using hone
      rcases List.mem_cons.mp h with h1 | h1
      · exact absurd (congrArg Prod.snd h1) hv
      · simp only [MulticastDataLinkMap.find_link, hv, if_false]
        exact ih hc h1

/-- Claim C16, disassociation on reliability loss. `reliability_lost_i(C, I)` leaves the
transport as it was. When `C` is the value of no entry it does not call
`disassociate_participant`. When `C` is registered it calls it exactly once, with the
identifier `I.get_participant_id()` whose participant component is replaced by a peer `P`
that keys `C` and whose other components are kept; `P` is the peer of the first entry with
value `C`, hence the peer under which `C` is registered whenever `C` is the value of one
entry only. -/
theorem disassociation_on_reliability_loss (self : MulticastTransport) (C : DataLinkPtr)
    (participant_id : RepoId) :
    (reliability_lost_i self C participant_id).self = self ∧
      (C ∉ self.links_.links →
        disassociations (reliability_lost_i self C participant_id).effects = []) ∧
      (C ∈ self.links_.links →
        ∃ P, (P, C) ∈ self.links_ ∧ self.links_.find_link C = some P ∧
          disassociations (reliability_lost_i self C participant_id).effects =
            [RepoIdBuilder.participantId participant_id P] ∧
          (RepoIdBuilder.participantId participant_id P).participant = P ∧
          (RepoIdBuilder.participantId participant_id P).entity = participant_id.entity) ∧
      (∀ P, (P, C) ∈ self.links_ → self.links_.links.count C ≤ 1 →
        disassociations (reliability_lost_i self C participant_id).effects =
          [⟨P, participant_id.entity⟩]) := by
  have hsome : ∀ P, self.links_.find_link C = some P →
      disassociations (reliability_lost_i self C participant_id).effects =
        [RepoIdBuilder.participantId participant_id P] := by
    intro P hP
    simp [reliability_lost_i, hP, disassociations]
  refine ⟨?_, ?_, ?_, ?_⟩
  · unfold reliability_lost_i
    cases self.links_.find_link C <;> rfl
  · intro hC
    have hnone := (MulticastDataLinkMap.find_link_eq_none_iff _ _).mpr hC
    simp [reliability_lost_i, hnone, disassociations]
  · intro hC
    cases hf : self.links_.find_link C with
    | none => exact absurd hC ((MulticastDataLinkMap.find_link_eq_none_iff _ _).mp hf)
    | some P =>
      exact ⟨P, MulticastDataLinkMap.mem_of_find_link _ _ _ hf, rfl, hsome P hf, rfl, rfl⟩
  · intro P hP hone
    rw [hsome P (MulticastDataLinkMap.find_link_of_mem_of_count _ _ _ hone hP)]
    rfl

theorem shutdowns_transport_shutdown (m : MulticastDataLinkMap) (tail : List Effect) :
    shutdowns (m.map (fun it => Effect.transport_shutdown it.2) ++ tail) =
      m.links ++ shutdowns tail := by
  induction m with
  | nil => simp [MulticastDataLinkMap.links]
  | cons e rest ih =>
    have hcons : shutdowns ((e :: rest).map (fun it => Effect.transport_shutdown it.2) ++
        tail) =
        e.2 :: shutdowns (rest.map (fun it => Effect.transport_shutdown it.2) ++ tail) := rfl
    rw [hcons, ih]
    simp [MulticastDataLinkMap.links]

/-- Claim C17 as stated fails: `release_datalink_i` removes the channel `7` from the links
map `2 ↦ 7` and calls `transport_shutdown` on no channel. -/
theorem release_does_not_shut_down :
    (release_datalink_i ⟨[(2, 7)], some sample_config⟩ 7 false).self.links_ = [] ∧
      shutdowns (release_datalink_i ⟨[(2, 7)], some sample_config⟩ 7 false).effects = [] ∧
      (release_datalink_i ⟨[(2, 7)], some sample_config⟩ 7 false).effects = [] := by
  decide

/-- Claim C17 as amended, channel shutdown on `shutdown_i`. On a configured transport
`shutdown_i` calls `transport_shutdown` during the call on the channels registered at the
time of the call, in the order of the map and once per entry, hence exactly once on every
registered channel when the map satisfies I1, and leaves the map empty.
`release_datalink_i` only removes the entry: it calls `transport_shutdown` on no channel. -/
theorem shutdown_i_shuts_channels_down (self : MulticastTransport)
    (config : MulticastConfiguration) (hconfig : self.config_i_ = some config) :
    ∃ out, shutdown_i self = some out ∧
      shutdowns out.effects = self.links_.links ∧ out.self.links_ = [] ∧
      (I1 self.links_ → ∀ C ∈ self.links_.links, (shutdowns out.effects).count C = 1) ∧
      ∀ (C : DataLinkPtr) (release_pending : Bool),
        shutdowns (release_datalink_i self C release_pending).effects = [] := by
  have hshut : shutdowns (self.links_.map (fun it => Effect.transport_shutdown it.2) ++
      [Effect.remove_ref config]) = self.links_.links := by
    rw [shutdowns_transport_shutdown]
    simp [shutdowns]
  refine ⟨⟨(), ⟨[], none⟩,
    self.links_.map (fun it => Effect.transport_shutdown it.2) ++ [Effect.remove_ref config]⟩,
    by simp only [shutdown_i, hconfig], hshut, rfl, ?_, ?_⟩
  · intro hI1 C hC
    simp only [hshut]
    exact List.count_eq_one_of_mem hI1.2 hC
  · intro C release_pending
    rfl

/-- Channel shutdown on the example: `shutdown_i` with `1 ↦ 5, 2 ↦ 7` registered shuts the
channels `5` and `7` down. -/
theorem shutdown_i_shuts_channels_down_witness :
    ∃ out, shutdown_i ⟨[(1, 5), (2, 7)], some sample_config⟩ = some out ∧
      shutdowns out.effects = [5, 7] ∧ out.self.links_ = [] := by
  obtain ⟨out, hout, hshut, hlinks, -⟩ := shutdown_i_shuts_channels_down
    ⟨[(1, 5), (2, 7)], some sample_config⟩ sample_config rfl
  exact ⟨out, hout, hshut, hlinks⟩

/-- Claim C18, the choice of the reliability mode. On the creation path (the remote
participant is not registered, the transport is configured, the link `L` and both strategies
are allocated) the calls on collaborators start with the construction of `L`, as a
`ReliableMulticast` when `reliable_` is true and as a `BestEffortMulticast` otherwise, in
both cases with the participants of `local_id` and of the remote id and with `active`; then
`configure` with the configuration of the transport, then `send_strategy`, then
`receive_strategy`. The only construction and no `join` are among these four calls; the one
`join` comes after them. -/
theorem reliability_mode_selection (self : MulticastTransport) (cdr : CDR)
    (env : Collaborators) (local_id : RepoId) (remote_association : AssociationData)
    (priority : Int) (active : Bool) (config : MulticastConfiguration) (L : DataLinkPtr)
    (hmiss : self.links_.find (RepoIdConverter.participantId remote_association.remote_id_) =
      none)
    (hconfig : self.config_i_ = some config) (hlink : env.new_link = some L)
    (hsend : env.new_send_strategy = true) (hrecv : env.new_recv_strategy = true) :
    ∃ out rest, find_or_create_datalink self cdr env local_id remote_association priority
        active = some out ∧
      out.effects =
        [if config.reliable_ = true then
            Effect.new_ReliableMulticast L (RepoIdConverter.participantId local_id)
              (RepoIdConverter.participantId remote_association.remote_id_) active
          else
            Effect.new_BestEffortMulticast L (RepoIdConverter.participantId local_id)
              (RepoIdConverter.participantId remote_association.remote_id_) active,
          Effect.configure L config, Effect.send_strategy L, Effect.receive_strategy L] ++
          rest ∧
      constructed rest = [] ∧
      joins rest = [(L, if active then
          (connection_info_i_in cdr remote_association.remote_data_).1
        else config.group_address_)] := by
  have h := find_or_create_datalink_created self cdr env local_id remote_association priority
    active config L hmiss hconfig hlink hsend hrecv
  by_cases hj : env.join (if active then
      (connection_info_i_in cdr remote_association.remote_data_).1
    else config.group_address_) = true
  · rw [if_pos hj] at h
    refine ⟨_, (if active then (connection_info_i_in cdr remote_association.remote_data_).2
        else []) ++
      [Effect.join L (if active then
        (connection_info_i_in cdr remote_association.remote_data_).1
      else config.group_address_)], h, List.append_assoc _ _ _, ?_, ?_⟩
    · cases active <;> simp [constructed_append, constructed, constructed_connection_info_i_in]
    · cases active <;> simp [joins_append, joins, joins_connection_info_i_in]
  · rw [if_neg hj] at h
    refine ⟨_, (if active then (connection_info_i_in cdr remote_association.remote_data_).2
        else []) ++
      [Effect.join L (if active then
        (connection_info_i_in cdr remote_association.remote_data_).1
      else config.group_address_),
      Effect.error_join_failed (if active then
        (connection_info_i_in cdr remote_association.remote_data_).1
      else config.group_address_)], h, List.append_assoc _ _ _, ?_, ?_⟩
    · cases active <;> simp [constructed_append, constructed, constructed_connection_info_i_in]
    · cases active <;> simp [joins_append, joins, joins_connection_info_i_in]

/-- Mode selection on the example: a reliable configuration makes the channel `7` a
`ReliableMulticast` of the participants `1` and `2`, configured and given both strategies
before the join. -/
theorem reliability_mode_selection_witness :
    ∃ out rest, find_or_create_datalink ⟨[], some ⟨true, sample_address⟩⟩ NetworkAddress.cdr
        (sample_env 7 true) ⟨1, 10⟩ (sample_association 10) 0 false = some out ∧
      out.effects =
        [Effect.new_ReliableMulticast 7 1 2 false, Effect.configure 7 ⟨true, sample_address⟩,
          Effect.send_strategy 7, Effect.receive_strategy 7] ++ rest ∧
      constructed rest = [] ∧ joins rest = [(7, sample_address)] :=
  reliability_mode_selection ⟨[], some ⟨true, sample_address⟩⟩ NetworkAddress.cdr
    (sample_env 7 true) ⟨1, 10⟩ (sample_association 10) 0 false ⟨true, sample_address⟩ 7 rfl
    rfl rfl rfl rfl

end OpenDDS.DCPS

namespace Bench

/-! ## The claim on `remove_handler` -/

theorem remove_handler_for_of_not_mem (handler : DataHandlerPtr)
    (handlers_ : List DataHandlerPtr) (h : handler ∉ handlers_) :
    remove_handler_for handler handlers_ = (handlers_, false) := by
  induction handlers_ with
  | nil => rfl
  | cons it rest ih =>
    have hne : handler ≠ it := fun hh => h (by simp [hh])
    have hrest : handler ∉ rest := fun hh => h (List.mem_cons_of_mem _ hh)
    simp [remove_handler_for, hne, ih hrest]

theorem remove_handler_for_of_mem (handler : DataHandlerPtr)
    (handlers_ : List DataHandlerPtr) (h : handler ∈ handlers_) :
    (remove_handler_for handler handlers_).2 = true ∧
      (remove_handler_for handler handlers_).1.filter (fun it => it ≠ handler) =
        handlers_.filter (fun it => it ≠ handler) ∧
      (remove_handler_for handler handlers_).1.count handler + 1 =
        handlers_.count handler := by
  induction handlers_ with
  | nil => simp at h
  | cons it rest ih =>
    by_cases hne : handler = it
    · simp [remove_handler_for, hne]
    · have hrest : handler ∈ rest := by
        rcases List.mem_cons.mp h with h1 | h1
        · exact absurd h1 hne
        · exact h1
      obtain ⟨h1, h2, h3⟩ := ih hrest
      have hne2 : it ≠ handler := Ne.symm hne
      simp only [remove_handler_for, hne, if_false]
      refine ⟨h1, ?_, ?_⟩
      · simpa [List.filter_cons, hne2] using h2
      · simp only [List.count_cons, beq_iff_eq, hne2, if_false, Nat.add_zero]
        exact h3

theorem remove_handler_while_eq (handler : DataHandlerPtr) (fuel : Nat)
    (handlers_ : List DataHandlerPtr) (hfuel : handlers_.count handler < fuel) :
    remove_handler_while handler fuel handlers_ =
      some (handlers_.filter (fun it => it ≠ handler)) := by
  induction fuel generalizing handlers_ with
  | zero => omega
  | succ fuel ih =>
    by_cases hmem : handler ∈ handlers_
    · obtain ⟨h1, h2, h3⟩ := remove_handler_for_of_mem handler handlers_ hmem
      have hstep : remove_handler_while handler (fuel + 1) handlers_ =
          remove_handler_while handler fuel (remove_handler_for handler handlers_).1 := by
        rw [remove_handler_while]
        cases hr : remove_handler_for handler handlers_ with
        | mk scanned found =>
          rw [hr] at h1
          simp only at h1
          subst h1
          rfl
      rw [hstep, ih _ (by omega), h2]
    · have hr := remove_handler_for_of_not_mem handler handlers_ hmem
      have hfil : handlers_.filter (fun it => it ≠ handler) = handlers_ := by
        rw [List.filter_eq_self]
        intro a ha
        have : a ≠ handler := fun hh => hmem (hh ▸ ha)
        simpa using this
      rw [remove_handler_while, hr, hfil]

/-- Claim C20, `remove_handler`. For every handler list and every handler `h` the loops of
`remove_handler` end, after at most one more round of the outer loop than `h` has
occurrences: with that much fuel the result is the list without the occurrences of `h`, the
other handlers kept in their order and multiplicity (the list filtered by "not equal to
`h`"). A handler that is not in the list leaves the list as it was. -/
theorem remove_handler_filters (self : WorkerDataReaderListener) (handler : DataHandlerPtr)
    (fuel : Nat) (hfuel : self.handlers_.count handler < fuel) :
    remove_handler self handler fuel =
        some ⟨self.handlers_.filter (fun it => it ≠ handler)⟩ ∧
      (∀ after, remove_handler self handler fuel = some after →
        handler ∉ after.handlers_ ∧
        ∀ other, other ≠ handler → after.handlers_.count other = self.handlers_.count other) ∧
      (handler ∉ self.handlers_ → remove_handler self handler fuel = some self) := by
  have hrun : remove_handler self handler fuel =
      some ⟨self.handlers_.filter (fun it => it ≠ handler)⟩ := by
    simp [remove_handler, remove_handler_while_eq handler fuel self.handlers_ hfuel]
  refine ⟨hrun, ?_, ?_⟩
  · intro after hafter
    rw [hrun] at hafter
    cases hafter
    refine ⟨by simp [List.mem_filter], ?_⟩
    intro other hother
    simp only
    rw [List.count_filter]
    simpa using hother
  · intro hmem
    rw [hrun]
    have hfil : self.handlers_.filter (fun it => it ≠ handler) = self.handlers_ := by
      rw [List.filter_eq_self]
      intro a ha
      have : a ≠ handler := fun hh => hmem (hh ▸ ha)
      simpa using this
    rw [hfil]

/-- The removal on the example: the handler `4`, added twice among others, is gone after
three rounds of the outer loop and the handlers `3`, `5` and `3` remain in their order. -/
theorem remove_handler_filters_witness :
    remove_handler ⟨[4, 3, 4, 5, 3]⟩ 4 3 = some ⟨[3, 5, 3]⟩ :=
  (remove_handler_filters ⟨[4, 3, 4, 5, 3]⟩ 4 3 (by decide)).1

end Bench
